import Mathlib

/-! Element trees of `squares/runapp.go`, with the layout arithmetic of
`glt/padding.go` and `flutter/base.go`.

A shallow embedding of the widget-to-element reconciler (`buildElementTree` and
its helpers), the dirty-rebuild walk (`rebuildDirty`), the rendered-flag
aggregation (`floatUpRendered`), hit testing (`hitTest`), event bubbling
(`bubbleUp`), the ancestor lookup `ContextOf`, `PaddingElement.layout` and the
size and constraint arithmetic of package `flutter`.

Elements are heap objects in the Go source, owned by exactly one parent.  The
embedding represents an element subtree as a tree value; every node carries the
identity `id` of the Go object it stands for, and an in-place mutation of an
object becomes a new tree value carrying the same `id`.  Objects are allocated
from the counter `St.nextId`, State objects from `St.nextSid`.
-/

namespace Squares

/-- Error values: the ones returned by a user `Build` method are opaque codes,
`unknownWidget` is the error made by `buildElementTree` itself. -/
inductive Err where
  | user (code : Nat)
  | unknownWidget (ty : Nat)
  deriving DecidableEq, Repr

/-- Child capability of an element object: neither interface, `HasChildElement`
or `HasChildrenElements`. -/
inductive Shape where
  | leaf
  | single
  | multi
  deriving DecidableEq, Repr

/-- Concrete Go type of an element object.  `*StatelessElement` and
`*StatefulElement` are the two types made by the reconciler itself; every other
element comes from a widget's `createElement` and is a `*CompositeElement` or
not (`composite`), with the given child capability. -/
inductive ElemClass where
  | stateless
  | stateful
  | structural (composite : Bool) (shape : Shape)
  deriving DecidableEq, Repr

/-- What `createElement` of an `ElementWidget` returns: the concrete element
type and the initial value of its `rendered` field. -/
structure Proto where
  composite : Bool
  shape : Shape
  rendered : Bool
  deriving DecidableEq, Repr

mutual
/-- A non-nil widget value, by the capability `buildElementTree` finds first:
`StatelessWidget` (has `Build`), `StatefulWidget` (has `CreateState`),
`ElementWidget` (has `createElement`), or none of them.  `ty` names the concrete
Go type.  The result of the one `Build` call made on the widget during a
reconciliation is carried by the value. -/
inductive Widget where
  | stateless (ty : Nat) (build : BuildResult)
  | stateful (ty : Nat) (createState : BuildResult)
  | element (ty : Nat) (proto : Proto) (kids : WidgetKids)
  | unknown (ty : Nat)
/-- Return value `(Widget, error)` of a `Build` method; the widget may be nil. -/
inductive BuildResult where
  | error (e : Err)
  | ok (w : Option Widget)
/-- Child capability of an `ElementWidget`: neither interface, `HasChild` with
the value of `getChild()`, or `HasChildren` with the value of `getChildren()`. -/
inductive WidgetKids where
  | leaf
  | child (w : Option Widget)
  | children (ws : List (Option Widget))
end

/-- A State object: its identity and what its `Build` method returns in its
present state. -/
structure State where
  sid : Nat
  build : BuildResult

/-- Fields of an element object. -/
structure ElemData where
  id : Nat
  cls : ElemClass
  widget : Widget
  state : Option State
  built : Bool
  rendered : Bool
  offset : Int × Int
  size : Int × Int

/-- An element object together with the elements it owns. For a
`HasChildElement` object the field `child` is the head of `kids`. -/
inductive Element where
  | node (d : ElemData) (kids : List Element)

/-- Calls of user code made by the reconciler, in order. -/
inductive Event where
  | build (ty : Nat) (ctx : Nat) (failed : Bool)
  | stateBuild (sid : Nat) (ctx : Nat) (failed : Bool)
  | createState (ty : Nat) (sid : Nat)
  | unknownWidget (ty : Nat)
  deriving DecidableEq, Repr

/-- Allocation counters and the trace of user-code calls. -/
structure St where
  nextId : Nat
  nextSid : Nat
  log : List Event
  deriving DecidableEq, Repr

/-- Result of running a Go function: it returns, or it panics. -/
inductive Outcome (α : Type) where
  | ret (a : α) (s : St)
  | panic (msg : String) (s : St)

namespace Element

def d : Element → ElemData
  | node d _ => d

def kids : Element → List Element
  | node _ ks => ks

def id (e : Element) : Nat := e.d.id

def cls (e : Element) : ElemClass := e.d.cls

/-- `GetWidget()`. -/
def GetWidget (e : Element) : Widget := e.d.widget

/-- `updateWidget(w)`: stores the new descriptor. -/
def updateWidget (e : Element) (w : Widget) : Element :=
  node { e.d with widget := w } e.kids

/-- Whether the object implements `HasChildElement`. -/
def hasChildElement (e : Element) : Bool :=
  match e.cls with
  | .stateless => true
  | .stateful => true
  | .structural _ s => s == .single

/-- Whether the object implements `HasChildrenElements`. -/
def hasChildrenElements (e : Element) : Bool :=
  match e.cls with
  | .structural _ s => s == .multi
  | _ => false

/-- `getChildElement()`. -/
def getChildElement (e : Element) : Option Element := e.kids.head?

/-- `setChildElement(parent, child)`: stores the child (nil clears it). -/
def setChildElement (e : Element) (child : Option Element) : Element :=
  node e.d child.toList

/-- `getChildrenElements()`. -/
def getChildrenElements (e : Element) : List Element := e.kids

/-- `setChildrenElements(parent, children)`. -/
def setChildrenElements (e : Element) (ec : List Element) : Element :=
  node e.d ec

end Element

/-- Concrete type of an interface value, as `reflect.TypeOf` sees it: nil for a
nil interface, else the capability class and type name. -/
inductive GoType where
  | nil
  | stateless (ty : Nat)
  | stateful (ty : Nat)
  | element (ty : Nat)
  | unknown (ty : Nat)
  deriving DecidableEq, Repr

def typeOf : Option Widget → GoType
  | none => .nil
  | some (.stateless ty _) => .stateless ty
  | some (.stateful ty _) => .stateful ty
  | some (.element ty _ _) => .element ty
  | some (.unknown ty) => .unknown ty

/-- `sameType(a, b)`. -/
def sameType (a b : Option Widget) : Bool := typeOf a == typeOf b

/-- `getWidgetChildren(ew)`. -/
def getWidgetChildren : WidgetKids → List (Option Widget)
  | .child none => []
  | .child (some c) => [some c]
  | .children ws => ws
  | .leaf => []

/-- `getElementChildren(e)`; `e` may be nil. -/
def getElementChildren : Option Element → List Element
  | none => []
  | some e =>
    if e.hasChildElement then
      match e.getChildElement with
      | none => []
      | some child => [child]
    else if e.hasChildrenElements then e.getChildrenElements
    else []

/-- `setElementChildren(e, ec)`: `none` is the panic "unhandleable". -/
def setElementChildren (e : Element) (ec : List Element) : Option Element :=
  if e.hasChildElement then
    if ec.length > 1 then none
    else
      match ec with
      | [c] => some (e.setChildElement (some c))
      | _ => some e
  else if e.hasChildrenElements then some (e.setChildrenElements ec)
  else some e

def St.record (st : St) (ev : Event) : St := { st with log := st.log ++ [ev] }

/-- `NewStatelessElement(sw)`. -/
def NewStatelessElement (sw : Widget) (st : St) : Element × St :=
  (.node { id := st.nextId, cls := .stateless, widget := sw, state := none,
           built := false, rendered := false, offset := (0, 0), size := (0, 0) } [],
   { st with nextId := st.nextId + 1 })

/-- `NewStatefulElement(widget, state)`. -/
def NewStatefulElement (w : Widget) (state : State) (st : St) : Element × St :=
  (.node { id := st.nextId, cls := .stateful, widget := w, state := some state,
           built := false, rendered := false, offset := (0, 0), size := (0, 0) } [],
   { st with nextId := st.nextId + 1 })

/-- `ew.createElement()`. -/
def createElement (ew : Widget) (p : Proto) (st : St) : Element × St :=
  (.node { id := st.nextId, cls := .structural p.composite p.shape, widget := ew,
           state := none, built := false, rendered := p.rendered,
           offset := (0, 0), size := (0, 0) } [],
   { st with nextId := st.nextId + 1 })

/-- `widget.CreateState()`: a new State object. -/
def CreateState (ty : Nat) (b : BuildResult) (st : St) : State × St :=
  ({ sid := st.nextSid, build := b },
   { st with nextSid := st.nextSid + 1, log := st.log ++ [.createState ty st.nextSid] })

/-- The type assertion `oldElement.(*StatelessElement)`. -/
def asStateless : Option Element → Option Element
  | some e => if e.cls = .stateless then some e else none
  | none => none

/-- The type assertion `oldElement.(*StatefulElement)`. -/
def asStateful : Option Element → Option Element
  | some e => if e.cls = .stateful then some e else none
  | none => none

theorem sizeOf_getChildElement (e : Element) :
    sizeOf e.getChildElement < sizeOf e := by
  cases e with
  | node d ks =>
    cases ks with
    | nil => simp [Element.getChildElement, Element.kids]
    | cons a t => simp [Element.getChildElement, Element.kids]; omega

theorem sizeOf_child_asStateless (old : Option Element) :
    sizeOf ((asStateless old).bind Element.getChildElement) ≤ sizeOf old := by
  cases old with
  | none => simp [asStateless]
  | some e =>
    have h := sizeOf_getChildElement e
    by_cases hc : e.cls = .stateless
    · simp [asStateless, hc]; omega
    · simp [asStateless, hc]

theorem sizeOf_child_asStateful (old : Option Element) :
    sizeOf ((asStateful old).bind Element.getChildElement) ≤ sizeOf old := by
  cases old with
  | none => simp [asStateful]
  | some e =>
    have h := sizeOf_getChildElement e
    by_cases hc : e.cls = .stateful
    · simp [asStateful, hc]; omega
    · simp [asStateful, hc]

theorem sizeOf_getElementChildren (old : Option Element) :
    sizeOf (getElementChildren old) ≤ sizeOf old := by
  cases old with
  | none => simp [getElementChildren]
  | some e =>
    cases e with
    | node d ks =>
      simp only [getElementChildren, Element.getChildElement, Element.getChildrenElements,
        Element.kids]
      split
      · cases ks with
        | nil => simp
        | cons a t => simp; omega
      · split
        · simp; omega
        · simp

theorem sizeOf_getWidgetChildren (ks : WidgetKids) :
    sizeOf (getWidgetChildren ks) ≤ sizeOf ks + 1 := by
  cases ks with
  | leaf => simp [getWidgetChildren]
  | child w =>
    cases w with
    | none => simp [getWidgetChildren]
    | some c => simp [getWidgetChildren]
  | children ws => simp [getWidgetChildren]; omega

/-- The old child offered to the widget child at index `i`: the element at that
index, when there is one and its stored widget has the widget child's type. -/
def oldChildAt (widgetChild : Option Widget) (oldElementChildren : List Element) (i : Nat) :
    Option Element :=
  match oldElementChildren[i]? with
  | some o => if sameType widgetChild (some o.GetWidget) then some o else none
  | none => none

theorem sizeOf_oldChildAt (w : Option Widget) (olds : List Element) (i : Nat) :
    sizeOf (oldChildAt w olds i) ≤ sizeOf olds := by
  unfold oldChildAt
  cases h : olds[i]? with
  | none => simp; cases olds <;> simp; omega
  | some o =>
    have hm : o ∈ olds := List.getElem?_mem h
    have := List.sizeOf_lt_of_mem hm
    simp only
    split
    · simp; omega
    · simp; cases olds <;> simp; omega

/-- The element a Builder widget is diffed onto: the prior element when it is a
`*StatelessElement` holding a widget of the same type, else a new one. -/
def statelessTarget (sw : Widget) (oldStatelessElement : Option Element) (st : St) :
    Element × St :=
  match oldStatelessElement with
  | some o =>
    if sameType (some sw) (some o.GetWidget) then (o.updateWidget sw, st)
    else NewStatelessElement sw st
  | none => NewStatelessElement sw st

/-- The element a Stateful widget is diffed onto: the prior element (with its
State) when it is a `*StatefulElement` holding a widget of the same type, else a
new one around a newly created State. -/
def statefulTarget (ty : Nat) (cs : BuildResult) (oldStatefulElement : Option Element)
    (st : St) : Element × St :=
  match oldStatefulElement with
  | some o =>
    if sameType (some (.stateful ty cs)) (some o.GetWidget) then
      (o.updateWidget (.stateful ty cs), st)
    else
      let ss := CreateState ty cs st
      NewStatefulElement (.stateful ty cs) ss.1 ss.2
  | none =>
    let ss := CreateState ty cs st
    NewStatefulElement (.stateful ty cs) ss.1 ss.2

/-- The element an `ElementWidget` is diffed onto. -/
def elementTarget (ew : Widget) (p : Proto) (oldElement : Option Element) (st : St) :
    Element × St :=
  match oldElement with
  | some o =>
    if sameType (some ew) (some o.GetWidget) then (o.updateWidget ew, st)
    else createElement ew p st
  | none => createElement ew p st

theorem sizeOf_statefulTarget_build (ty : Nat) (cs : BuildResult) (old : Option Element)
    (st : St) (state : State) (w : Option Widget)
    (hs : (statefulTarget ty cs (asStateful old) st).1.d.state = some state)
    (hb : state.build = .ok w) :
    sizeOf w + sizeOf ((asStateful old).bind Element.getChildElement)
      < sizeOf (Widget.stateful ty cs) + sizeOf old := by
  have hnew : ∀ s : St, (NewStatefulElement (.stateful ty cs) (CreateState ty cs s).1
      (CreateState ty cs s).2).1.d.state = some state →
      sizeOf w < sizeOf (Widget.stateful ty cs) := by
    intro s h
    simp [NewStatefulElement, CreateState, Element.d] at h
    subst h
    simp at hb
    subst hb
    simp
    omega
  have hle := sizeOf_child_asStateful old
  cases old with
  | none =>
    simp only [asStateful, statefulTarget] at hs
    have := hnew st hs
    simp only [asStateful, Option.bind] at *
    omega
  | some e =>
    by_cases hc : e.cls = .stateful
    · simp only [asStateful, hc, if_true, statefulTarget] at hs
      split at hs
      · cases e with
        | node d ks =>
          simp only [Element.updateWidget, Element.d] at hs
          have h1 : sizeOf w < sizeOf d := by
            cases d with
            | mk id cls widget state0 built rendered offset size =>
              simp at hs
              subst hs
              cases state with
              | mk sid build =>
                simp at hb
                subst hb
                simp
                omega
          simp only [asStateful, hc, if_true, Option.bind]
          cases ks with
          | nil => simp [Element.getChildElement, Element.kids]; omega
          | cons a t => simp [Element.getChildElement, Element.kids]; omega
      · have := hnew st hs
        omega
    · simp only [asStateful, hc, if_false, statefulTarget] at hs
      have := hnew st hs
      omega

mutual
def buildElementTree (w : Option Widget) (oldElement : Option Element) (st : St) :
    Outcome (Option Element × Option Err) :=
  match w with
  | none => .ret (none, none) st
  | some (.stateless ty b) => elementFromStatelessWidget ty b oldElement st
  | some (.stateful ty cs) => elementFromStatefulWidget ty cs oldElement st
  | some (.element ty p ks) => elementFromElementWidget ty p ks oldElement st
  | some (.unknown ty) =>
    .ret (none, some (.unknownWidget ty)) (st.record (.unknownWidget ty))
termination_by 4 * (sizeOf w + sizeOf oldElement) + 3
decreasing_by
  all_goals simp_wf
  all_goals omega

def elementFromStatelessWidget (ty : Nat) (b : BuildResult) (oldElement : Option Element)
    (st : St) : Outcome (Option Element × Option Err) :=
  let oldStatelessElement := asStateless oldElement
  let es := statelessTarget (.stateless ty b) oldStatelessElement st
  match b with
  | .error e => .ret (none, some e) (es.2.record (.build ty es.1.id true))
  | .ok builtWidget =>
    let oldChildElement := oldStatelessElement.bind Element.getChildElement
    match buildElementTree builtWidget oldChildElement
        (es.2.record (.build ty es.1.id false)) with
    | .panic m s => .panic m s
    | .ret (_, some err) s => .ret (none, some err) s
    | .ret (childElement, none) s =>
      .ret (some (es.1.setChildElement childElement), none) s
termination_by 4 * (sizeOf (Widget.stateless ty b) + sizeOf oldElement) + 2
decreasing_by
  all_goals simp_wf
  have := sizeOf_child_asStateless oldElement
  omega

def elementFromStatefulWidget (ty : Nat) (cs : BuildResult) (oldElement : Option Element)
    (st : St) : Outcome (Option Element × Option Err) :=
  let oldStatefulElement := asStateful oldElement
  let es := statefulTarget ty cs oldStatefulElement st
  match hs : es.1.d.state with
  | none => .panic "nil State" es.2
  | some state =>
    match hb : state.build with
    | .error e => .ret (none, some e) (es.2.record (.stateBuild state.sid es.1.id true))
    | .ok childWidget =>
      let oldChildElement := oldStatefulElement.bind Element.getChildElement
      match buildElementTree childWidget oldChildElement
          (es.2.record (.stateBuild state.sid es.1.id false)) with
      | .panic m s => .panic m s
      | .ret (_, some err) s => .ret (none, some err) s
      | .ret (childElement, none) s =>
        let element := es.1.setChildElement childElement
        .ret (some (.node { element.d with built := true } element.kids), none) s
termination_by 4 * (sizeOf (Widget.stateful ty cs) + sizeOf oldElement) + 2
decreasing_by
  all_goals simp_wf
  have := sizeOf_statefulTarget_build ty cs oldElement st state childWidget hs hb
  simp at this
  omega

def processElementChildren (widgetChildren : List (Option Widget))
    (oldElementChildren : List Element) (i : Nat) (newElementChildren : List Element)
    (st : St) : Outcome (List Element × Option Err) :=
  match widgetChildren with
  | [] => .ret (newElementChildren, none) st
  | widgetChild :: rest =>
    let oldChildElement := oldChildAt widgetChild oldElementChildren i
    match buildElementTree widgetChild oldChildElement st with
    | .panic m s => .panic m s
    | .ret (_, some err) s => .ret (newElementChildren, some err) s
    | .ret (newChildElement, none) s =>
      processElementChildren rest oldElementChildren (i + 1)
        (newElementChildren ++ newChildElement.toList) s
termination_by 4 * (sizeOf widgetChildren + sizeOf oldElementChildren)
decreasing_by
  all_goals simp_wf
  have := sizeOf_oldChildAt widgetChild oldElementChildren i
  omega

def elementFromElementWidget (ty : Nat) (p : Proto) (ks : WidgetKids)
    (oldElement : Option Element) (st : St) : Outcome (Option Element × Option Err) :=
  let es := elementTarget (.element ty p ks) p oldElement st
  match processElementChildren (getWidgetChildren ks) (getElementChildren oldElement) 0 []
      es.2 with
  | .panic m s => .panic m s
  | .ret (_, some err) s => .ret (some es.1, some err) s
  | .ret (newElementChildren, none) s =>
    match setElementChildren es.1 newElementChildren with
    | none => .panic "unhandleable" s
    | some element => .ret (some element, none) s
termination_by 4 * (sizeOf (Widget.element ty p ks) + sizeOf oldElement) + 2
decreasing_by
  all_goals simp_wf
  have := sizeOf_getWidgetChildren ks
  have := sizeOf_getElementChildren oldElement
  omega
end

theorem sizeOf_getElementChildren_lt (e : Element) :
    sizeOf (getElementChildren (some e)) < sizeOf e := by
  cases e with
  | node d ks =>
    have hd : 0 < sizeOf d := by cases d; simp
    simp only [getElementChildren, Element.getChildElement, Element.getChildrenElements,
      Element.kids]
    split
    · cases ks with
      | nil => simp
      | cons a t => simp; omega
    · split
      · simp
      · simp; omega

/-- The element after its visited children have been updated in place: the
child links are the same, the child objects are in their new state. -/
def Element.withChildren (e : Element) (cs : List Element) : Element :=
  if e.hasChildElement then
    match cs, e.kids with
    | [c], _ :: t => .node e.d (c :: t)
    | _, _ => e
  else if e.hasChildrenElements then .node e.d cs
  else e

/-- Assignment to the `rendered` field. -/
def Element.setRendered (e : Element) (b : Bool) : Element :=
  .node { e.d with rendered := b } e.kids

/-- Whether the type assertion `element.(*CompositeElement)` succeeds. -/
def Element.isComposite (e : Element) : Bool :=
  match e.cls with
  | .structural c _ => c
  | _ => false

/-- Whether the type assertion `element.(*StatefulElement)` succeeds. -/
def Element.isStateful (e : Element) : Bool :=
  match e.cls with
  | .stateful => true
  | _ => false

mutual
/-- `rebuildDirty(element)`: `.ok e` is the return of a nil error with the
element left in state `e`; `.error err` is the return of `err`. -/
def rebuildDirty (element : Element) (st : St) : Outcome (Except Err Element) :=
  if element.isStateful && !element.d.built then
    match buildElementTree (some element.GetWidget) (some element) st with
    | .panic m s => .panic m s
    | .ret (_, some err) s => .ret (.error err) s
    | .ret (newElement, none) s =>
      match asStateful newElement with
      | none => .panic "interface conversion" s
      | some ne =>
        if ne.id ≠ element.id then
          .panic "statefulelement changed element during dirty rebuild" s
        else .ret (.ok (ne.setRendered false)) s
  else
    match rebuildDirtyChildren (getElementChildren (some element)) st with
    | .panic m s => .panic m s
    | .ret (.error err) s => .ret (.error err) s
    | .ret (.ok cs) s => .ret (.ok (element.withChildren cs)) s
termination_by 2 * sizeOf element + 1
decreasing_by
  all_goals simp_wf
  have := sizeOf_getElementChildren_lt element
  omega

/-- The loop `for _, child := range children` of `rebuildDirty`. -/
def rebuildDirtyChildren (children : List Element) (st : St) :
    Outcome (Except Err (List Element)) :=
  match children with
  | [] => .ret (.ok []) st
  | child :: rest =>
    match rebuildDirty child st with
    | .panic m s => .panic m s
    | .ret (.error err) s => .ret (.error err) s
    | .ret (.ok c) s =>
      match rebuildDirtyChildren rest s with
      | .panic m s2 => .panic m s2
      | .ret (.error err) s2 => .ret (.error err) s2
      | .ret (.ok cs) s2 => .ret (.ok (c :: cs)) s2
termination_by 2 * sizeOf children
decreasing_by
  all_goals simp_wf
  all_goals omega
end

mutual
/-- `floatUpRendered(element)`: the returned flag and the element as the call
leaves it. -/
def floatUpRendered (element : Element) : Bool × Element :=
  let ok := element.isComposite
  let res := floatUpRenderedChildren (getElementChildren (some element))
  let element1 := element.withChildren res.2
  let element2 := if ok && !res.1 then element1.setRendered false else element1
  if res.1 == false then (false, element2)
  else
    let ok2 := element.isStateful
    if ok && !element2.d.rendered then (false, element2)
    else if ok2 && !element2.d.rendered then (false, element2.setRendered true)
    else (true, element2)
termination_by 2 * sizeOf element + 1
decreasing_by
  all_goals simp_wf
  have := sizeOf_getElementChildren_lt element
  omega

/-- The loop over the children in `floatUpRendered`: whether every child
returned true, and the children as the calls leave them. -/
def floatUpRenderedChildren (children : List Element) : Bool × List Element :=
  match children with
  | [] => (true, [])
  | child :: rest =>
    let r := floatUpRendered child
    let rs := floatUpRenderedChildren rest
    (r.1 && rs.1, r.2 :: rs.2)
termination_by 2 * sizeOf children
decreasing_by
  all_goals simp_wf
  all_goals omega
end

/-- Own contribution of a node to the aggregate: its `rendered` field when it is
a `*StatefulElement` or a `*CompositeElement`, true when it carries no flag. -/
def selfRendered (e : Element) : Bool :=
  if e.isStateful || e.isComposite then e.d.rendered else true

mutual
/-- The recursive function of the design notes:
`rendered(node) = node.selfRendered AND AND-over(rendered(child))`. -/
def renderedSpec (e : Element) : Bool :=
  selfRendered e && renderedSpecAll (getElementChildren (some e))
termination_by 2 * sizeOf e + 1
decreasing_by
  all_goals simp_wf
  have := sizeOf_getElementChildren_lt e
  omega

/-- The conjunction over a list of children. -/
def renderedSpecAll (cs : List Element) : Bool :=
  match cs with
  | [] => true
  | c :: t => renderedSpec c && renderedSpecAll t
termination_by 2 * sizeOf cs
decreasing_by
  all_goals simp_wf
  all_goals omega
end

/-- The element reached from `e` by following child links: `i :: p` goes to the
child at index `i` of `getElementChildren`, then along `p`. -/
def descend (e : Element) : List Nat → Option Element
  | [] => some e
  | i :: p =>
    match (getElementChildren (some e))[i]? with
    | none => none
    | some c => descend c p

/-! ## Concrete trees used as test inputs -/

/-- Fields of an element with the given identity, type, widget, State and flags;
offset and size zero. -/
def mkData (id : Nat) (cls : ElemClass) (w : Widget) (state : Option State)
    (built rendered : Bool) : ElemData :=
  { id := id, cls := cls, widget := w, state := state, built := built, rendered := rendered,
    offset := (0, 0), size := (0, 0) }

/-- A leaf `ElementWidget` (no child capability) of type 5. -/
def leafW : Widget := .element 5 ⟨false, .leaf, false⟩ .leaf

/-- A stateful widget of type 7 whose State builds nothing. -/
def emptyStatefulW : Widget := .stateful 7 (.ok none)

/-- A stateful element (object 2) with `rendered = false` and no child. -/
def staleChild : Element :=
  .node (mkData 2 .stateful emptyStatefulW (some ⟨0, .ok none⟩) true false) []

/-- A stateful element (object 1) with `rendered = true` above `staleChild`. -/
def statefulOverStale : Element :=
  .node (mkData 1 .stateful (.stateful 8 (.ok (some emptyStatefulW)))
    (some ⟨1, .ok (some emptyStatefulW)⟩) true true) [staleChild]

/-- A `*CompositeElement` (object 1) with `rendered = true` above `staleChild`. -/
def compositeOverStale : Element :=
  .node (mkData 1 (.structural true .multi)
    (.element 9 ⟨true, .multi, true⟩ (.children [some emptyStatefulW])) none false true)
    [staleChild]

/-- The element's concrete type agrees with the capability of the widget it
stores, as for every element made by `buildElementTree`: a Builder widget is
held by a `*StatelessElement`, a Stateful widget by a `*StatefulElement`. -/
def classMatches (e : Element) : Prop :=
  match e.GetWidget with
  | .stateless _ _ => e.cls = .stateless
  | .stateful _ _ => e.cls = .stateful
  | _ => True

/-- A `*StatefulElement` (object 3), not yet built, holding `emptyStatefulW`
and State object 4. -/
def dirtyStateful : Element :=
  .node (mkData 3 .stateful emptyStatefulW (some ⟨4, .ok (some leafW)⟩) false true) []

/-- A single-child `ElementWidget` of type 1 (a padding) around the given child
widget; its element implements `HasChildElement`. -/
def paddingW (child : Option Widget) : Widget :=
  .element 1 ⟨false, .single, false⟩ (.child child)

/-- The element (object 21) of `leafW`. -/
def leafE : Element :=
  .node (mkData 21 (.structural false .leaf) leafW none false false) []

/-- A padding element (object 20) holding a padding widget with a leaf child,
and the leaf's element as its child. -/
def paddingOverLeaf : Element :=
  .node (mkData 20 (.structural false .single) (paddingW (some leafW)) none false false)
    [leafE]

/-- A padding element (object 20) whose child is the not yet built stateful
element `dirtyStateful`. -/
def paddingOverDirty : Element :=
  .node (mkData 20 (.structural false .single) (paddingW (some emptyStatefulW)) none
    false false) [dirtyStateful]

/-- A stateful root (object 1), not yet built, whose State now builds a padding
without child, above `paddingOverDirty`. -/
def dirtyRoot : Element :=
  .node (mkData 1 .stateful (.stateful 8 (.ok (some (paddingW none))))
    (some ⟨1, .ok (some (paddingW none))⟩) false true) [paddingOverDirty]

/-- Whether the traced call made the reconciliation fail: a `Build` that
returned an error, or a widget with none of the three capabilities. -/
def Event.isFailure : Event → Bool
  | .build _ _ failed => failed
  | .stateBuild _ _ failed => failed
  | .createState _ _ => false
  | .unknownWidget _ => true

/-- The trace of `s` extends the trace of `st` by calls among which one failed
exactly when an error `err` is returned. -/
def LogExt (st s : St) (err : Option Err) : Prop :=
  ∃ evs, s.log = st.log ++ evs ∧ (err.isSome = true ↔ ∃ ev ∈ evs, ev.isFailure = true)

/-- `LogExt` for the returned error of a call that returns. -/
def LogPost {α : Type} (st : St) : Outcome (α × Option Err) → Prop
  | .ret (_, err) s => LogExt st s err
  | .panic _ _ => True

/-- A Builder widget of type 2 whose `Build` gives a stateful widget whose
State fails to build with error code 42. -/
def failingBelowW : Widget :=
  .stateless 2 (.ok (some (.stateful 3 (.error (.user 42)))))

/-- The element `x` is `e` or lies below `e` along child links. -/
def Reach (e x : Element) : Prop := ∃ p, descend e p = some x

/-- The element `x` lies strictly below the (possibly nil) element `o`. -/
def Below (o : Option Element) (x : Element) : Prop :=
  ∃ c ∈ getElementChildren o, Reach c x

/-- The element `x` is in one of the subtrees of the list. -/
def ReachAny (l : List Element) (x : Element) : Prop := ∃ e ∈ l, Reach e x

/-- The object `x`, and its State object if it has one, were allocated between
the states `st` and `s`. -/
def Fresh (st s : St) (x : Element) : Prop :=
  st.nextId ≤ x.id ∧ x.id < s.nextId ∧
    ∀ t, x.d.state = some t → st.nextSid ≤ t.sid ∧ t.sid < s.nextSid

/-- The object `x` is one of the prior objects `olds`, with the State object
it had. -/
def Kept (olds : Element → Prop) (x : Element) : Prop :=
  ∃ y, olds y ∧ y.id = x.id ∧ y.d.state = x.d.state

/-- What a successful `buildElementTree` guarantees about where the objects of
the returned tree come from: the root is new or the prior root, every object
below it is new or was below the prior root. -/
def TrackPost (old : Option Element) (st : St) :
    Outcome (Option Element × Option Err) → Prop
  | .ret (r, none) s =>
    st.nextId ≤ s.nextId ∧ st.nextSid ≤ s.nextSid ∧
      ∀ e', r = some e' →
        (Fresh st s e' ∨ Kept (fun y => old = some y) e') ∧
        ∀ x, Below (some e') x → Kept (Below old) x ∨ Fresh st s x
  | _ => True

/-- The same for the loop of `processElementChildren`. -/
def LoopPost (olds acc : List Element) (st : St) :
    Outcome (List Element × Option Err) → Prop
  | .ret (cs, none) s =>
    st.nextId ≤ s.nextId ∧ st.nextSid ≤ s.nextSid ∧
      ∃ cs', cs = acc ++ cs' ∧
        ∀ c ∈ cs', ∀ x, Reach c x → Kept (ReachAny olds) x ∨ Fresh st s x
  | _ => True

/-- The two ways a target element is chosen: the prior element with the new
widget stored, nothing allocated; or a new childless object with the next
identity, around a new State object if it has one. -/
def TargetOK (old : Option Element) (w : Widget) (st : St) (es : Element × St) : Prop :=
  (∃ o, old = some o ∧ es.1 = o.updateWidget w ∧ es.2.nextId = st.nextId ∧
      es.2.nextSid = st.nextSid) ∨
  (es.1.kids = [] ∧ es.1.id = st.nextId ∧ es.2.nextId = st.nextId + 1 ∧
    st.nextSid ≤ es.2.nextSid ∧
    ∀ t, es.1.d.state = some t → t.sid = st.nextSid ∧ es.2.nextSid = st.nextSid + 1)

/-- A Builder widget of type 1 whose `Build` gives `leafW`. -/
def builderB : Widget := .stateless 1 (.ok (some leafW))

/-- A `*StatelessElement` (object 20) holding a Builder widget of another type
(type 0), with the element of `leafW` (object 21) as its child. -/
def builderAOverLeaf : Element :=
  .node (mkData 20 .stateless (.stateless 0 (.ok (some leafW))) none false false) [leafE]

/-- The object `c` was allocated between the states `st` and `s`. -/
def NewId (st s : St) (c : Element) : Prop := st.nextId ≤ c.id ∧ c.id < s.nextId

/-- The child made for the widget child `w` at an index where the prior element
has the child `eo` (nil when it has none there): the prior child itself, with
its State, when its stored widget has the type of `w`; a new object otherwise. -/
def ChildAt (st s : St) (w : Option Widget) (eo : Option Element) (c : Element) : Prop :=
  match eo with
  | some e =>
    if sameType w (some e.GetWidget) then c.id = e.id ∧ c.d.state = e.d.state
    else NewId st s c
  | none => NewId st s c

/-- An `ElementWidget` of type 6 that declares the child `leafW` (`HasChild`)
and whose element has neither child capability. -/
def childlessElementW : Widget :=
  .element 6 ⟨false, .leaf, false⟩ (.child (some leafW))

/-- A composite widget of type 9 with two children: a stateful widget and a
leaf. -/
def rowW : Widget :=
  .element 9 ⟨true, .multi, true⟩ (.children [some emptyStatefulW, some leafW])

/-! ## Hit testing -/

/-- `inBounds(offset, size, x, y)`.  Coordinates, offsets and sizes are exact
integers (the source computes in `float64`; rounding is out of scope). -/
def inBounds (offset size : Int × Int) (x y : Int) : Bool :=
  let xo := x - offset.1
  let yo := y - offset.2
  decide (xo > 0) && decide (yo > 0) && decide (xo < size.1) && decide (yo < size.2)

mutual
/-- `hitTest(element, x, y)`; `none` is the nil element. -/
def hitTest (element : Element) (x y : Int) : Option Element :=
  let offset := element.d.offset
  if inBounds offset element.d.size x y then
    match hitTestChildren (getElementChildren (some element)) (x - offset.1) (y - offset.2) with
    | some r => some r
    | none => some element
  else none
termination_by 2 * sizeOf element + 1
decreasing_by
  all_goals simp_wf
  have := sizeOf_getElementChildren_lt element
  omega

/-- The loop over the children in `hitTest`, with the translated point. -/
def hitTestChildren (children : List Element) (xo yo : Int) : Option Element :=
  match children with
  | [] => none
  | child :: rest =>
    match hitTest child xo yo with
    | some r => some r
    | none => hitTestChildren rest xo yo
termination_by 2 * sizeOf children
decreasing_by
  all_goals simp_wf
  all_goals omega
end

/-- The point `(x, y)`, given in the coordinates in which `e` is placed, in the
coordinates local to the element reached from `e` along `p`: the stored offsets
of `e`, of every element on the way and of the element reached are subtracted. -/
def localPoint (e : Element) : List Nat → Int → Int → Option (Int × Int)
  | [], x, y => some (x - e.d.offset.1, y - e.d.offset.2)
  | i :: p, x, y =>
    match (getElementChildren (some e))[i]? with
    | none => none
    | some c => localPoint c p (x - e.d.offset.1) (y - e.d.offset.2)

/-- An element (object 40) without children, of size 10 × 10 at offset (0, 0). -/
def box10 : Element :=
  .node { id := 40, cls := .structural false .leaf, widget := leafW, state := none,
          built := false, rendered := false, offset := (0, 0), size := (10, 10) } []

/-- An element (object 41) of size 100 × 100 at offset (5, 5) holding `box10`. -/
def frame100 : Element :=
  .node { id := 41, cls := .structural false .single, widget := paddingW (some leafW),
          state := none, built := false, rendered := false, offset := (5, 5),
          size := (100, 100) } [box10]

/-- An element (object 50) without children, of size 10 × 10 at offset (5, 5). -/
def box10At5 : Element :=
  .node { id := 50, cls := .structural false .leaf, widget := leafW, state := none,
          built := false, rendered := false, offset := (5, 5), size := (10, 10) } []

/-- An element (object 51) of size 100 × 100 at offset (0, 0) holding `box10At5`. -/
def parent100 : Element :=
  .node { id := 51, cls := .structural false .single, widget := paddingW (some leafW),
          state := none, built := false, rendered := false, offset := (0, 0),
          size := (100, 100) } [box10At5]

/-! ## Event bubbling and ancestor lookup -/

/-- The pointer event handed to listeners (a `ScrollEvent`): direction and
magnitude. -/
structure PointerEvent where
  up : Bool
  delta : Int
  deriving DecidableEq, Repr

/-- The two methods of an element that the tree values do not carry:
`getParentElement()` (nil for the root) and, for an element that implements
`PointerEventListener`, the result of `HandleEvent(event)`. -/
structure Links where
  getParentElement : Element → Option Element
  listener : Element → Option (PointerEvent → Bool)

/-- What a run of `bubbleUp` did: the elements visited, the elements whose
`HandleEvent` was called, both in order, and whether a listener reported the
event handled. -/
structure Bubble where
  visited : List Nat
  calls : List Nat
  handled : Bool
  deriving DecidableEq, Repr

/-- `bubbleUp(element, event)`, the recursion depth bounded by the first
argument: `none` when the bound is reached before the call returns. -/
def bubbleUp (L : Links) : Nat → Element → PointerEvent → Option Bubble
  | 0, _, _ => none
  | n + 1, element, event =>
    let above : Option Bubble :=
      match L.getParentElement element with
      | some parent => bubbleUp L n parent event
      | none => some ⟨[], [], false⟩
    match L.listener element with
    | some handleEvent =>
      if handleEvent event then some ⟨[element.id], [element.id], true⟩
      else above.map fun b => ⟨element.id :: b.visited, element.id :: b.calls, b.handled⟩
    | none => above.map fun b => ⟨element.id :: b.visited, b.calls, b.handled⟩

/-- The list is the parent chain of its head: each element's parent is the
next one, the last one has no parent. -/
def ParentChain (L : Links) : List Element → Prop
  | [] => False
  | [a] => L.getParentElement a = none
  | a :: b :: rest => L.getParentElement a = some b ∧ ParentChain L (b :: rest)

/-- Whether the element is a listener that reports the event handled. -/
def handles (L : Links) (event : PointerEvent) (a : Element) : Bool :=
  match L.listener a with
  | some handleEvent => handleEvent event
  | none => false

/-- The chain up to and including the first element that handles the event;
the whole chain when none does. -/
def upToHandler (L : Links) (event : PointerEvent) : List Element → List Element
  | [] => []
  | a :: rest => if handles L event a then [a] else a :: upToHandler L event rest

/-- The loop of `ContextOf`, the number of iterations bounded by the first
argument; the second is the loop variable `parentContext`.  `none` when the
bound is reached before the loop ends, `some r` when `r` is returned. -/
def ContextOfLoop (L : Links) (element : Element) (typeOf : Option Widget) :
    Nat → Option Element → Option (Option Element)
  | _, none => some none
  | 0, some _ => none
  | n + 1, some parentContext =>
    if sameType (some parentContext.GetWidget) typeOf then some (some parentContext)
    else ContextOfLoop L element typeOf n (L.getParentElement element)

/-- `ContextOf(context, typeOf)`. -/
def ContextOf (L : Links) (fuel : Nat) (context : Element) (typeOf : Option Widget) :
    Option (Option Element) :=
  ContextOfLoop L context typeOf fuel (L.getParentElement context)

/-- Parent links `box10` → `frame100` → `compositeOverStale`; `frame100` is a
listener that handles scrolling up only. -/
def sampleLinks : Links where
  getParentElement := fun e =>
    if e.id = 40 then some frame100 else if e.id = 41 then some compositeOverStale else none
  listener := fun e => if e.id = 41 then some (fun ev => ev.up) else none

/-! ## Layout of the padding element (`glt/padding.go`) -/

namespace Glt

/-- `EdgeInsets`; the fields are `uint16`. -/
structure EdgeInsets where
  Left : Nat
  Top : Nat
  Right : Nat
  Bottom : Nat
  deriving DecidableEq, Repr

/-- `horizontal()`, in `uint16` arithmetic. -/
def EdgeInsets.horizontal (c : EdgeInsets) : Nat := (c.Left + c.Right) % 65536

/-- `vertical()`, in `uint16` arithmetic. -/
def EdgeInsets.vertical (c : EdgeInsets) : Nat := (c.Top + c.Bottom) % 65536

/-- `EdgeInsetsAll(all)`. -/
def EdgeInsetsAll (all : Nat) : EdgeInsets := ⟨all, all, all, all⟩

/-- `EdgeInsetsSymmetric(vertical, horizontal)`. -/
def EdgeInsetsSymmetric (vertical horizontal : Nat) : EdgeInsets :=
  ⟨horizontal, vertical, horizontal, vertical⟩

structure Offset where
  x : Nat
  y : Nat
  deriving DecidableEq, Repr

structure Size where
  width : Nat
  height : Nat
  deriving DecidableEq, Repr

/-- The operations on constraints and sizes that `layout` calls and whose
declarations are not in `padding.go`: `c.deflate(insets)`, `c.constrain(size)`
and `size.addMargin(insets)`. -/
structure LayoutOps (Constraints : Type) where
  deflate : Constraints → EdgeInsets → Constraints
  constrain : Constraints → Size → Size
  addMargin : Size → EdgeInsets → Size

/-- The child element as `layout` sees it: its size, its offset, and what its
own `layout(c)` does to them and returns. -/
structure Child (Constraints : Type) where
  size : Size
  offset : Offset
  layout : Constraints → Size → Offset → Size × Offset × Option Err

/-- The widget `Padding`; `layout` reads its field `Padding` only. -/
structure Padding where
  Padding : EdgeInsets
  deriving DecidableEq, Repr

/-- A `PaddingElement`: the widget it holds (`none` when that widget is not a
`*Padding`), its size and its child. -/
structure PaddingElement (Constraints : Type) where
  widget : Option Padding
  size : Size
  child : Option (Child Constraints)

/-- Result of `PaddingElement.layout`: a panic, or the element as the call
leaves it together with the returned error. -/
inductive LayoutOutcome (Constraints : Type) where
  | panic (msg : String)
  | ret (element : PaddingElement Constraints) (err : Option Err)

/-- `(element *PaddingElement) layout(c)`. -/
def PaddingElement.layout {Constraints : Type} (ops : LayoutOps Constraints)
    (element : PaddingElement Constraints) (c : Constraints) : LayoutOutcome Constraints :=
  match element.child with
  | none => .panic "padding with no child"
  | some child =>
    match element.widget with
    | none => .panic "interface conversion"
    | some widget =>
      let innerConstraints := ops.deflate c widget.Padding
      let laid := child.layout innerConstraints child.size child.offset
      let child1 : Child Constraints := { child with size := laid.1, offset := laid.2.1 }
      let childSize := child1.size
      let size := ops.constrain c (ops.addMargin childSize widget.Padding)
      let child2 : Child Constraints :=
        { child1 with offset := ⟨widget.Padding.Left, widget.Padding.Top⟩ }
      .ret { element with size := size, child := some child2 } none

/-- Constraints as four bounds `(minWidth, minHeight, maxWidth, maxHeight)`,
with operations that add the insets on both sides; test input only. -/
def sampleOps : LayoutOps (Nat × Nat × Nat × Nat) where
  deflate := fun c i =>
    (c.1 - i.horizontal, c.2.1 - i.vertical, c.2.2.1 - i.horizontal, c.2.2.2 - i.vertical)
  constrain := fun c s =>
    ⟨max c.1 (min c.2.2.1 s.width), max c.2.1 (min c.2.2.2 s.height)⟩
  addMargin := fun s i => ⟨s.width + i.horizontal, s.height + i.vertical⟩

/-- A fixed 20 × 20 child whose `layout` succeeds. -/
def fixedChild : Child (Nat × Nat × Nat × Nat) :=
  { size := ⟨20, 20⟩, offset := ⟨0, 0⟩, layout := fun _ _ o => (⟨20, 20⟩, o, none) }

/-- A child whose `layout` returns the error with code 7. -/
def failingChild : Child (Nat × Nat × Nat × Nat) :=
  { size := ⟨0, 0⟩, offset := ⟨0, 0⟩, layout := fun _ s o => (s, o, some (.user 7)) }

end Glt

/-! ## Sizes and constraints of package `flutter` (`flutter/base.go`) -/

namespace Flutter

/-- `math.MaxUint16`. -/
def MaxUint16 : Nat := 65535

/-- Subtraction of `uint16` values: the result wraps modulo 2^16. -/
def sub16 (a b : Nat) : Nat := (a + 65536 - b % 65536) % 65536

/-- Addition of `uint16` values. -/
def add16 (a b : Nat) : Nat := (a + b) % 65536

structure EdgeInsets where
  All : Nat
  deriving DecidableEq, Repr

structure Size where
  width : Nat
  height : Nat
  deriving DecidableEq, Repr

/-- The type `constraints`; the fields are `uint16`. -/
structure constraints where
  minWidth : Nat
  minHeight : Nat
  maxWidth : Nat
  maxHeight : Nat
  deriving DecidableEq, Repr

/-- `(s Size) addMargin(in)`. -/
def Size.addMargin (s : Size) (i : EdgeInsets) : Size :=
  { width := add16 s.width i.All, height := add16 s.height i.All }

/-- `(c constraints) addMargins(in)`. -/
def constraints.addMargins (c : constraints) (i : EdgeInsets) : constraints :=
  let c1 := if c.minWidth > i.All then { c with minWidth := sub16 c.minWidth i.All }
            else { c with minWidth := 0 }
  let c2 := if c1.minHeight > i.All then { c1 with minHeight := sub16 c1.minHeight i.All }
            else { c1 with minHeight := 0 }
  let c3 := if c2.maxWidth ≠ MaxUint16 then { c2 with maxWidth := sub16 c2.maxWidth i.All }
            else c2
  let c4 := if c3.maxHeight ≠ MaxUint16 then { c3 with maxHeight := sub16 c3.maxHeight i.All }
            else c3
  c4

end Flutter

/-- The call returns, or it panics inside the reconciler: a nil State is
dereferenced, or `setElementChildren` is given more than one child for a
single-child element. -/
def ReconcilerPanic {α : Type} : Outcome α → Prop
  | .panic m _ => m = "nil State" ∨ m = "unhandleable"
  | .ret _ _ => True

/-! ## Properties -/

@[simp] theorem Element.d_node (d : ElemData) (ks : List Element) :
    (Element.node d ks).d = d := rfl

@[simp] theorem Element.kids_node (d : ElemData) (ks : List Element) :
    (Element.node d ks).kids = ks := rfl

@[simp] theorem withChildren_d (e : Element) (cs : List Element) :
    (e.withChildren cs).d = e.d := by
  unfold Element.withChildren
  split
  · split <;> simp
  · split <;> simp

@[simp] theorem setRendered_d (e : Element) (b : Bool) :
    (e.setRendered b).d = { e.d with rendered := b } := by
  simp [Element.setRendered]

/-- Induction over an element tree along its child links. -/
theorem Element.tree_induction {P : Element → Prop}
    (step : ∀ e, (∀ c ∈ getElementChildren (some e), P c) → P e) (e : Element) : P e := by
  have key : ∀ n (e : Element), sizeOf e ≤ n → P e := by
    intro n
    induction n with
    | zero =>
      intro e h
      cases e with
      | node d ks => simp at h
    | succ n ih =>
      intro e h
      apply step
      intro c hc
      apply ih
      have h1 := List.sizeOf_lt_of_mem hc
      have h2 := sizeOf_getElementChildren_lt e
      omega
  exact key _ e le_rfl

theorem floatUpRendered_fst (e : Element) :
    (floatUpRendered e).1
      = (selfRendered e && (floatUpRenderedChildren (getElementChildren (some e))).1) := by
  rw [floatUpRendered]
  simp only [selfRendered]
  cases h : (floatUpRenderedChildren (getElementChildren (some e))).1
  · simp
  · cases hc : e.isComposite <;> cases hs : e.isStateful <;> cases hr : e.d.rendered <;>
      simp [hr]

theorem floatUpRenderedChildren_fst (cs : List Element) :
    (floatUpRenderedChildren cs).1 = cs.all (fun c => (floatUpRendered c).1) := by
  induction cs with
  | nil => simp [floatUpRenderedChildren]
  | cons c t ih => rw [floatUpRenderedChildren]; simp [ih]

theorem floatUpRenderedChildren_snd (cs : List Element) :
    (floatUpRenderedChildren cs).2 = cs.map (fun c => (floatUpRendered c).2) := by
  induction cs with
  | nil => simp [floatUpRenderedChildren]
  | cons c t ih => rw [floatUpRenderedChildren]; simp [ih]

theorem renderedSpecAll_eq (cs : List Element) :
    renderedSpecAll cs = cs.all renderedSpec := by
  induction cs with
  | nil => simp [renderedSpecAll]
  | cons c t ih => rw [renderedSpecAll]; simp [ih]

theorem list_all_congr_mem {α : Type} {f g : α → Bool} (l : List α)
    (h : ∀ x ∈ l, f x = g x) : l.all f = l.all g := by
  induction l with
  | nil => rfl
  | cons a t ih =>
    simp only [List.all_cons]
    rw [h a (List.mem_cons_self a t), ih (fun x hx => h x (List.mem_cons_of_mem a hx))]

theorem floatUpRendered_eq_spec (e : Element) : (floatUpRendered e).1 = renderedSpec e := by
  induction e using Element.tree_induction with
  | step e ih =>
    rw [floatUpRendered_fst, renderedSpec, floatUpRenderedChildren_fst, renderedSpecAll_eq,
      list_all_congr_mem _ ih]

theorem descend_nil (e : Element) : descend e [] = some e := rfl

theorem descend_cons (e : Element) (i : Nat) (p : List Nat) :
    descend e (i :: p) = ((getElementChildren (some e))[i]?).bind (fun c => descend c p) := by
  simp only [descend]
  cases (getElementChildren (some e))[i]? <;> rfl

theorem renderedSpec_iff (e : Element) :
    renderedSpec e = true ↔ ∀ p x, descend e p = some x → selfRendered x = true := by
  induction e using Element.tree_induction with
  | step e ih =>
    rw [renderedSpec, renderedSpecAll_eq]
    constructor
    · intro h p x hp
      simp only [Bool.and_eq_true, List.all_eq_true] at h
      cases p with
      | nil =>
        simp only [descend_nil, Option.some.injEq] at hp
        subst hp
        exact h.1
      | cons i p =>
        rw [descend_cons] at hp
        cases hc : (getElementChildren (some e))[i]? with
        | none => simp [hc] at hp
        | some c =>
          simp only [hc, Option.some_bind] at hp
          have hm := List.getElem?_mem hc
          exact (ih c hm).mp (h.2 c hm) p x hp
    · intro h
      simp only [Bool.and_eq_true, List.all_eq_true]
      refine ⟨h [] e rfl, ?_⟩
      intro c hc
      apply (ih c hc).mpr
      intro p x hp
      obtain ⟨i, hi, hget⟩ := List.getElem_of_mem hc
      apply h (i :: p) x
      rw [descend_cons, List.getElem?_eq_getElem hi, hget]
      simpa using hp

/-- C9: `floatUpRendered(e)` returns the value of the recursive function
`rendered(node) = node.selfRendered AND (AND over rendered(child))` on the flags
as they were before the call, an element without a rendered flag counting as
true; so it returns true exactly when every stateful and every composite element
of the subtree of `e` had `rendered = true`. -/
theorem C9_floatUpRendered_is_rendered_aggregate (e : Element) :
    (floatUpRendered e).1 = renderedSpec e ∧
    ((floatUpRendered e).1 = true ↔
      ∀ p x, descend e p = some x → (x.isStateful || x.isComposite) = true →
        x.d.rendered = true) := by
  refine ⟨floatUpRendered_eq_spec e, ?_⟩
  rw [floatUpRendered_eq_spec, renderedSpec_iff]
  constructor
  · intro h p x hp hf
    have := h p x hp
    simpa [selfRendered, hf] using this
  · intro h p x hp
    unfold selfRendered
    split
    · rename_i hf
      exact h p x hp hf
    · rfl

theorem floatUpRendered_snd_shape (e : Element) :
    (floatUpRendered e).2.d.cls = e.d.cls ∧ (floatUpRendered e).2.d.id = e.d.id ∧
      (floatUpRendered e).2.kids
        = (e.withChildren (floatUpRenderedChildren (getElementChildren (some e))).2).kids := by
  rw [floatUpRendered]
  simp only
  generalize (floatUpRenderedChildren (getElementChildren (some e))) = res
  repeat' split
  all_goals simp [Element.setRendered]

theorem getElementChildren_eq (e : Element) :
    getElementChildren (some e)
      = if e.hasChildElement then e.kids.head?.toList
        else if e.hasChildrenElements then e.kids else [] := by
  simp only [getElementChildren, Element.getChildElement, Element.getChildrenElements]
  split
  · cases e.kids.head? <;> rfl
  · rfl

theorem hasChildElement_congr {e1 e2 : Element} (h : e1.d.cls = e2.d.cls) :
    e1.hasChildElement = e2.hasChildElement := by
  simp [Element.hasChildElement, Element.cls, h]

theorem hasChildrenElements_congr {e1 e2 : Element} (h : e1.d.cls = e2.d.cls) :
    e1.hasChildrenElements = e2.hasChildrenElements := by
  simp [Element.hasChildrenElements, Element.cls, h]

theorem getElementChildren_withChildren_map (e : Element) (f : Element → Element)
    (e2 : Element) (hc : e2.d.cls = e.d.cls)
    (hk : e2.kids = (e.withChildren ((getElementChildren (some e)).map f)).kids) :
    getElementChildren (some e2) = (getElementChildren (some e)).map f := by
  rw [getElementChildren_eq e2, hasChildElement_congr hc, hasChildrenElements_congr hc, hk]
  rw [getElementChildren_eq e]
  unfold Element.withChildren
  cases h1 : e.hasChildElement
  · cases h2 : e.hasChildrenElements
    · simp
    · simp
  · cases hks : e.kids with
    | nil => simp [hks]
    | cons a t => simp

theorem getElementChildren_floatUpRendered (e : Element) :
    getElementChildren (some (floatUpRendered e).2)
      = (getElementChildren (some e)).map (fun c => (floatUpRendered c).2) := by
  have h := floatUpRendered_snd_shape e
  apply getElementChildren_withChildren_map e _ _ h.1
  rw [h.2.2, floatUpRenderedChildren_snd]

theorem descend_floatUpRendered (p : List Nat) :
    ∀ e : Element, descend (floatUpRendered e).2 p
      = (descend e p).map (fun a => (floatUpRendered a).2) := by
  induction p with
  | nil => intro e; rfl
  | cons i p ih =>
    intro e
    rw [descend_cons, descend_cons, getElementChildren_floatUpRendered, List.getElem?_map]
    cases (getElementChildren (some e))[i]? with
    | none => rfl
    | some c => simp [ih c]

theorem floatUpRendered_stale_below (a x : Element) (q : List Nat)
    (hq : descend a q = some x) (hx : selfRendered x = false) :
    (floatUpRendered a).1 = false := by
  rw [floatUpRendered_eq_spec]
  cases h : renderedSpec a with
  | false => rfl
  | true =>
    have := (renderedSpec_iff a).mp h q x hq
    rw [hx] at this
    cases this

theorem floatUpRendered_composite_flag (a : Element) (hc : a.isComposite = true)
    (hch : (floatUpRenderedChildren (getElementChildren (some a))).1 = false) :
    (floatUpRendered a).2.d.rendered = false := by
  rw [floatUpRendered]
  simp [hc, hch]

theorem floatUpRendered_stateful_flag (a : Element) (hs : a.isStateful = true)
    (hch : (floatUpRenderedChildren (getElementChildren (some a))).1 = false) :
    (floatUpRendered a).2.d.rendered = a.d.rendered := by
  have hc : a.isComposite = false := by
    unfold Element.isStateful at hs
    unfold Element.isComposite
    cases h : a.cls <;> simp [h] at hs ⊢
  rw [floatUpRendered]
  simp [hc, hch]

theorem floatUpRenderedChildren_stale (a x : Element) (q : List Nat)
    (hq : descend a q = some x) (hne : q ≠ [])
    (hflag : (x.isStateful || x.isComposite) = true) (hstale : x.d.rendered = false) :
    (floatUpRenderedChildren (getElementChildren (some a))).1 = false := by
  cases q with
  | nil => exact absurd rfl hne
  | cons i q =>
    rw [descend_cons] at hq
    cases hc : (getElementChildren (some a))[i]? with
    | none => simp [hc] at hq
    | some c =>
      simp only [hc, Option.some_bind] at hq
      have hx : selfRendered x = false := by simp [selfRendered, hflag, hstale]
      have hcf := floatUpRendered_stale_below c x q hq hx
      rw [floatUpRenderedChildren_fst]
      cases hall : (getElementChildren (some a)).all (fun c => (floatUpRendered c).1) with
      | false => rfl
      | true =>
        rw [List.all_eq_true] at hall
        have := hall c (List.getElem?_mem hc)
        rw [hcf] at this
        cases this

/-- C10 (amended): after `floatUpRendered(root)`, an element whose rendered flag
was false before the call forces `rendered = false` on every strict ancestor
that is a `*CompositeElement`, and leaves the rendered flag of every strict
ancestor that is a `*StatefulElement` as it was before the call; the ancestor is
the same object as before. -/
theorem C10_stale_ancestor_flags (root a x : Element) (p q : List Nat)
    (hp : descend root p = some a) (hq : descend a q = some x) (hne : q ≠ [])
    (hflag : (x.isStateful || x.isComposite) = true) (hstale : x.d.rendered = false) :
    ∃ a', descend (floatUpRendered root).2 p = some a' ∧ a'.id = a.id ∧
      (a.isComposite = true → a'.d.rendered = false) ∧
      (a.isStateful = true → a'.d.rendered = a.d.rendered) := by
  have hch := floatUpRenderedChildren_stale a x q hq hne hflag hstale
  refine ⟨(floatUpRendered a).2, ?_, ?_, ?_, ?_⟩
  · rw [descend_floatUpRendered, hp]; rfl
  · exact (floatUpRendered_snd_shape a).2.1
  · intro hcomp
    exact floatUpRendered_composite_flag a hcomp hch
  · intro hs
    exact floatUpRendered_stateful_flag a hs hch

/-- C10 as stated fails: a stateful element with `rendered = true` above a
stateful element with `rendered = false` still has `rendered = true` after
`floatUpRendered`. -/
theorem C10_counterexample_stateful_ancestor :
    descend statefulOverStale [0] = some staleChild ∧
    staleChild.isStateful = true ∧ staleChild.d.rendered = false ∧
    statefulOverStale.isStateful = true ∧
    (floatUpRendered statefulOverStale).2.id = statefulOverStale.id ∧
    (floatUpRendered statefulOverStale).2.d.rendered = true := by
  simp [floatUpRendered, floatUpRenderedChildren, statefulOverStale, staleChild, mkData,
    descend, getElementChildren, Element.hasChildElement, Element.hasChildrenElements,
    Element.getChildElement, Element.getChildrenElements, Element.cls, Element.isStateful,
    Element.isComposite, Element.withChildren, Element.setRendered, Element.id]

theorem C10_stale_ancestor_flags_witness :
    ∃ a', descend (floatUpRendered compositeOverStale).2 [] = some a' ∧
      a'.id = compositeOverStale.id ∧
      (compositeOverStale.isComposite = true → a'.d.rendered = false) ∧
      (compositeOverStale.isStateful = true →
        a'.d.rendered = compositeOverStale.d.rendered) :=
  C10_stale_ancestor_flags compositeOverStale compositeOverStale staleChild [] [0]
    rfl
    (by simp [descend, compositeOverStale, getElementChildren, Element.hasChildElement,
      Element.hasChildrenElements, Element.getChildrenElements, Element.cls, mkData])
    (by simp)
    (by simp [staleChild, mkData, Element.isStateful, Element.cls])
    (by simp [staleChild, mkData])

theorem withChildren_self (e : Element) :
    e.withChildren (getElementChildren (some e)) = e := by
  rw [getElementChildren_eq]
  unfold Element.withChildren
  cases e with
  | node d ks =>
    cases h1 : (Element.node d ks).hasChildElement
    · cases h2 : (Element.node d ks).hasChildrenElements <;> simp
    · cases ks <;> simp

theorem rebuildDirtyChildren_unchanged (cs : List Element) (st : St)
    (h : ∀ c ∈ cs, ∀ s, rebuildDirty c s = .ret (.ok c) s) :
    rebuildDirtyChildren cs st = .ret (.ok cs) st := by
  induction cs generalizing st with
  | nil => rw [rebuildDirtyChildren]
  | cons c t ih =>
    rw [rebuildDirtyChildren, h c (List.mem_cons_self c t)]
    simp only
    rw [ih st (fun x hx => h x (List.mem_cons_of_mem c hx))]

/-- C8: when no stateful element reachable from `root` has `built = false`,
`rebuildDirty(root)` returns nil and changes nothing: the element tree is the
same (every element, flag and child link), no object is allocated and the trace
of `Build` and `CreateState` calls is unchanged. -/
theorem C8_rebuildDirty_clean_is_noop (root : Element) (st : St)
    (hclean : ∀ p x, descend root p = some x → x.isStateful = true → x.d.built = true) :
    rebuildDirty root st = .ret (.ok root) st := by
  induction root using Element.tree_induction generalizing st with
  | step e ih =>
    have hroot : (e.isStateful && !e.d.built) = false := by
      cases hs : e.isStateful with
      | false => rfl
      | true => simp [hclean [] e rfl hs]
    rw [rebuildDirty]
    simp only [hroot, Bool.false_eq_true, if_false]
    rw [rebuildDirtyChildren_unchanged]
    · simp only [withChildren_self]
    · intro c hc s
      apply ih c hc
      intro p x hp
      obtain ⟨i, hi, hget⟩ := List.getElem_of_mem hc
      apply hclean (i :: p) x
      rw [descend_cons, List.getElem?_eq_getElem hi, hget]
      simpa using hp

theorem C8_rebuildDirty_clean_is_noop_witness :
    rebuildDirty statefulOverStale ⟨10, 5, []⟩ = .ret (.ok statefulOverStale) ⟨10, 5, []⟩ :=
  C8_rebuildDirty_clean_is_noop statefulOverStale ⟨10, 5, []⟩ (by
    intro p x hp _
    match p, hp with
    | [], hp =>
      simp only [descend, Option.some.injEq] at hp
      subst hp
      rfl
    | [0], hp =>
      simp [descend, statefulOverStale, staleChild, mkData, getElementChildren,
        Element.hasChildElement, Element.cls, Element.getChildElement] at hp
      subst hp
      rfl
    | 0 :: _ :: _, hp =>
      simp [descend, statefulOverStale, staleChild, mkData, getElementChildren,
        Element.hasChildElement, Element.cls, Element.getChildElement] at hp
    | (_ + 1) :: _, hp =>
      simp [descend, statefulOverStale, staleChild, mkData, getElementChildren,
        Element.hasChildElement, Element.cls, Element.getChildElement] at hp)

@[simp] theorem setChildElement_d (e : Element) (c : Option Element) :
    (e.setChildElement c).d = e.d := rfl

@[simp] theorem updateWidget_d (e : Element) (w : Widget) :
    (e.updateWidget w).d = { e.d with widget := w } := rfl

theorem setElementChildren_d (e r : Element) (ec : List Element)
    (h : setElementChildren e ec = some r) : r.d = e.d := by
  unfold setElementChildren at h
  repeat' split at h
  all_goals simp at h
  all_goals subst h
  all_goals simp [Element.setChildrenElements]

theorem elementFromStatelessWidget_root (ty : Nat) (b : BuildResult) (old : Option Element)
    (st s : St) (r : Option Element)
    (h : elementFromStatelessWidget ty b old st = .ret (r, none) s) :
    ∃ e', r = some e' ∧
      e'.d = (statelessTarget (.stateless ty b) (asStateless old) st).1.d := by
  rw [elementFromStatelessWidget.eq_def] at h
  simp only at h
  repeat' split at h
  all_goals simp at h
  obtain ⟨h1, _⟩ := h
  exact ⟨_, h1.symm, rfl⟩

theorem elementFromStatefulWidget_root (ty : Nat) (cs : BuildResult) (old : Option Element)
    (st s : St) (r : Option Element)
    (h : elementFromStatefulWidget ty cs old st = .ret (r, none) s) :
    ∃ e', r = some e' ∧
      e'.d = { (statefulTarget ty cs (asStateful old) st).1.d with built := true } := by
  rw [elementFromStatefulWidget] at h
  simp only at h
  repeat' split at h
  all_goals simp at h
  obtain ⟨h1, _⟩ := h
  exact ⟨_, h1.symm, rfl⟩

theorem elementFromElementWidget_root (ty : Nat) (p : Proto) (ks : WidgetKids)
    (old : Option Element) (st s : St) (r : Option Element)
    (h : elementFromElementWidget ty p ks old st = .ret (r, none) s) :
    ∃ e', r = some e' ∧ e'.d = (elementTarget (.element ty p ks) p old st).1.d := by
  rw [elementFromElementWidget] at h
  repeat' split at h
  all_goals simp at h
  rename_i hset
  obtain ⟨h1, _⟩ := h
  exact ⟨_, h1.symm, setElementChildren_d _ _ _ hset⟩
theorem typeOf_stateless_inv (w : Widget) (ty : Nat) (h : typeOf (some w) = .stateless ty) :
    ∃ b, w = .stateless ty b := by
  cases w <;> simp [typeOf] at h
  subst h
  exact ⟨_, rfl⟩

theorem typeOf_stateful_inv (w : Widget) (ty : Nat) (h : typeOf (some w) = .stateful ty) :
    ∃ b, w = .stateful ty b := by
  cases w <;> simp [typeOf] at h
  subst h
  exact ⟨_, rfl⟩

theorem statelessTarget_reuse (sw : Widget) (E : Element) (st : St)
    (hc : E.cls = .stateless) (hty : sameType (some sw) (some E.GetWidget) = true) :
    statelessTarget sw (asStateless (some E)) st = (E.updateWidget sw, st) := by
  simp [statelessTarget, asStateless, hc, hty]

theorem statefulTarget_reuse (ty : Nat) (cs : BuildResult) (E : Element) (st : St)
    (hc : E.cls = .stateful)
    (hty : sameType (some (.stateful ty cs)) (some E.GetWidget) = true) :
    statefulTarget ty cs (asStateful (some E)) st = (E.updateWidget (.stateful ty cs), st) := by
  simp [statefulTarget, asStateful, hc, hty]

theorem elementTarget_reuse (ew : Widget) (p : Proto) (E : Element) (st : St)
    (hty : sameType (some ew) (some E.GetWidget) = true) :
    elementTarget ew p (some E) st = (E.updateWidget ew, st) := by
  simp [elementTarget, hty]

theorem buildElementTree_dirtyStateful :
    buildElementTree (some emptyStatefulW) (some dirtyStateful) ⟨10, 5, []⟩
      = .ret (some (.node (mkData 3 .stateful emptyStatefulW (some ⟨4, .ok (some leafW)⟩)
            true true)
          [.node (mkData 10 (.structural false .leaf) leafW none false false) []]), none)
          ⟨11, 5, [.stateBuild 4 3 false]⟩ := by
  simp [buildElementTree, elementFromStatefulWidget, elementFromElementWidget,
    processElementChildren, emptyStatefulW, dirtyStateful, leafW, mkData, statefulTarget,
    asStateful, sameType, typeOf, Element.cls, Element.GetWidget, Element.updateWidget,
    elementTarget, createElement, St.record, getWidgetChildren, getElementChildren,
    setElementChildren, Element.hasChildElement, Element.hasChildrenElements,
    Element.getChildElement, Element.setChildElement, Element.id]

theorem elementFromStatefulWidget_nil_state (ty : Nat) (cs : BuildResult)
    (old : Option Element) (st : St)
    (hs : (statefulTarget ty cs (asStateful old) st).1.d.state = none) :
    elementFromStatefulWidget ty cs old st
      = .panic "nil State" (statefulTarget ty cs (asStateful old) st).2 := by
  rw [elementFromStatefulWidget]
  split
  · rfl
  · rename_i st2 hsome
    rw [hs] at hsome
    cases hsome

theorem elementFromStatefulWidget_build_error (ty : Nat) (cs : BuildResult)
    (old : Option Element) (st : St) (state : State) (e : Err)
    (hs : (statefulTarget ty cs (asStateful old) st).1.d.state = some state)
    (hb : state.build = .error e) :
    elementFromStatefulWidget ty cs old st
      = .ret (none, some e) ((statefulTarget ty cs (asStateful old) st).2.record
          (.stateBuild state.sid (statefulTarget ty cs (asStateful old) st).1.id true)) := by
  rw [elementFromStatefulWidget]
  split
  · rename_i hnone
    rw [hs] at hnone
    cases hnone
  · rename_i st2 hsome
    rw [hs] at hsome
    cases hsome
    split
    · rename_i e2 he
      rw [hb] at he
      cases he
      rfl
    · rename_i cw2 he
      rw [hb] at he
      cases he

theorem elementFromStatefulWidget_build_ok (ty : Nat) (cs : BuildResult)
    (old : Option Element) (st : St) (state : State) (cw : Option Widget)
    (hs : (statefulTarget ty cs (asStateful old) st).1.d.state = some state)
    (hb : state.build = .ok cw) :
    elementFromStatefulWidget ty cs old st
      = match buildElementTree cw ((asStateful old).bind Element.getChildElement)
          ((statefulTarget ty cs (asStateful old) st).2.record
            (.stateBuild state.sid (statefulTarget ty cs (asStateful old) st).1.id false)) with
        | .panic m s => .panic m s
        | .ret (_, some err) s => .ret (none, some err) s
        | .ret (childElement, none) s =>
          .ret (some (.node
            { ((statefulTarget ty cs (asStateful old) st).1.setChildElement childElement).d
                with built := true }
            ((statefulTarget ty cs (asStateful old) st).1.setChildElement childElement).kids),
            none) s := by
  rw [elementFromStatefulWidget]
  split
  · rename_i hnone
    rw [hs] at hnone
    cases hnone
  · rename_i st2 hsome
    rw [hs] at hsome
    cases hsome
    split
    · rename_i e2 he
      rw [hb] at he
      cases he
    · rename_i cw2 he
      rw [hb] at he
      cases he
      rfl

theorem sameType_self (w : Widget) : sameType (some w) (some w) = true := by
  simp [sameType]

theorem isStateful_iff (e : Element) : e.isStateful = true ↔ e.cls = .stateful := by
  unfold Element.isStateful
  cases e.cls <;> simp

/-- C6: for a stateful element `e` (holding a Stateful widget) with
`built = false`, a `rebuildDirty(e)` that returns nil has run the reconciler on
`e`'s own stored widget against `e`, and leaves the same object with
`built = true`, `rendered = false` and the State object it had. -/
theorem C6_rebuildDirty_rebuilds_dirty_element (e e' : Element) (st s : St)
    (hs : e.isStateful = true) (hb : e.d.built = false)
    (hw : ∃ ty cs, e.GetWidget = .stateful ty cs)
    (h : rebuildDirty e st = .ret (.ok e') s) :
    (∃ r, buildElementTree (some e.GetWidget) (some e) st = .ret (some r, none) s ∧
      e' = r.setRendered false) ∧
    e'.id = e.id ∧ e'.d.built = true ∧ e'.d.rendered = false ∧ e'.d.state = e.d.state := by
  obtain ⟨ty, cs, hw⟩ := hw
  rw [rebuildDirty] at h
  simp only [hs, hb, Bool.not_false, Bool.and_self, if_true] at h
  cases hbt : buildElementTree (some e.GetWidget) (some e) st with
  | panic m s1 => rw [hbt] at h; simp at h
  | ret a s1 =>
    obtain ⟨r, err⟩ := a
    rw [hbt] at h
    cases err with
    | some err => simp at h
    | none =>
      have hbt' := hbt
      rw [hw, buildElementTree] at hbt'
      obtain ⟨x, hr, hd⟩ := elementFromStatefulWidget_root ty cs _ st s1 r hbt'
      have hty : sameType (some (Widget.stateful ty cs)) (some e.GetWidget) = true := by
        rw [hw]; exact sameType_self _
      rw [statefulTarget_reuse ty cs e st ((isStateful_iff e).mp hs) hty] at hd
      subst hr
      have hcls : x.cls = .stateful := by
        have := (isStateful_iff e).mp hs
        simpa [Element.cls, hd] using this
      have hid : x.id = e.id := by simp [Element.id, hd]
      simp only [asStateful, hcls, if_true, hid, ne_eq, not_true_eq_false, if_false] at h
      simp only [Outcome.ret.injEq, Except.ok.injEq] at h
      obtain ⟨h1, h2⟩ := h
      subst h1 h2
      refine ⟨⟨x, rfl, rfl⟩, ?_, ?_, ?_, ?_⟩
      · simp [Element.id, hd]
      · simp [hd]
      · simp
      · simp [hd]

theorem rebuildDirty_dirtyStateful :
    rebuildDirty dirtyStateful ⟨10, 5, []⟩
      = .ret (.ok (.node (mkData 3 .stateful emptyStatefulW (some ⟨4, .ok (some leafW)⟩)
            true false)
          [.node (mkData 10 (.structural false .leaf) leafW none false false) []]))
          ⟨11, 5, [.stateBuild 4 3 false]⟩ := by
  rw [rebuildDirty]
  have hw : dirtyStateful.GetWidget = emptyStatefulW := rfl
  rw [hw, buildElementTree_dirtyStateful]
  simp [dirtyStateful, mkData, Element.isStateful, Element.cls, asStateful, Element.id,
    Element.setRendered]

theorem C6_rebuildDirty_rebuilds_dirty_element_witness :
    (∃ r, buildElementTree (some dirtyStateful.GetWidget) (some dirtyStateful) ⟨10, 5, []⟩
        = .ret (some r, none) ⟨11, 5, [.stateBuild 4 3 false]⟩ ∧
      Element.node (mkData 3 .stateful emptyStatefulW (some ⟨4, .ok (some leafW)⟩) true false)
          [.node (mkData 10 (.structural false .leaf) leafW none false false) []]
        = r.setRendered false) ∧
    (Element.node (mkData 3 .stateful emptyStatefulW (some ⟨4, .ok (some leafW)⟩) true false)
      [.node (mkData 10 (.structural false .leaf) leafW none false false) []]).id
      = dirtyStateful.id ∧
    (mkData 3 .stateful emptyStatefulW (some ⟨4, .ok (some leafW)⟩) true false).built = true ∧
    (mkData 3 .stateful emptyStatefulW (some ⟨4, .ok (some leafW)⟩) true false).rendered
      = false ∧
    (mkData 3 .stateful emptyStatefulW (some ⟨4, .ok (some leafW)⟩) true false).state
      = dirtyStateful.d.state :=
  C6_rebuildDirty_rebuilds_dirty_element dirtyStateful _ ⟨10, 5, []⟩ _
    (by simp [dirtyStateful, mkData, Element.isStateful, Element.cls])
    (by simp [dirtyStateful, mkData])
    ⟨7, .ok none, rfl⟩
    rebuildDirty_dirtyStateful

/-- C4, at the failing input: a padding widget whose child is nil is reconciled
onto the padding element that holds a child.  The widget declares no child, the
call succeeds, and the reused element still has its old child. -/
theorem C4_nil_child_keeps_old_child :
    getWidgetChildren (.child none) = [] ∧
    buildElementTree (some (paddingW none)) (some paddingOverLeaf) ⟨30, 5, []⟩
      = .ret (some (.node (mkData 20 (.structural false .single) (paddingW none) none
          false false) [leafE]), none) ⟨30, 5, []⟩ ∧
    getElementChildren (some (.node (mkData 20 (.structural false .single) (paddingW none)
      none false false) [leafE])) = [leafE] := by
  simp [buildElementTree, elementFromElementWidget, processElementChildren, paddingW,
    paddingOverLeaf, leafE, leafW, mkData, sameType, typeOf, Element.cls, Element.GetWidget,
    Element.updateWidget, elementTarget, getWidgetChildren, getElementChildren,
    setElementChildren, Element.hasChildElement, Element.hasChildrenElements,
    Element.getChildElement]

theorem buildElementTree_padding_over_dirty (st : St) :
    buildElementTree (some (paddingW none)) (some paddingOverDirty) st
      = .ret (some (.node (mkData 20 (.structural false .single) (paddingW none) none
          false false) [dirtyStateful]), none) st := by
  simp [buildElementTree, elementFromElementWidget, processElementChildren, paddingW,
    paddingOverDirty, mkData, sameType, typeOf, Element.GetWidget,
    Element.updateWidget, elementTarget, getWidgetChildren,
    setElementChildren, Element.hasChildElement, Element.cls]

theorem statefulTarget_dirtyRoot (st : St) :
    statefulTarget 8 (.ok (some (paddingW none))) (asStateful (some dirtyRoot)) st
      = (.node (mkData 1 .stateful (.stateful 8 (.ok (some (paddingW none))))
          (some ⟨1, .ok (some (paddingW none))⟩) false true) [paddingOverDirty], st) := by
  simp [statefulTarget, asStateful, dirtyRoot, mkData, sameType, typeOf, Element.cls,
    Element.GetWidget, Element.updateWidget]

theorem buildElementTree_dirtyRoot :
    buildElementTree (some (.stateful 8 (.ok (some (paddingW none))))) (some dirtyRoot)
        ⟨30, 5, []⟩
      = .ret (some (.node (mkData 1 .stateful (.stateful 8 (.ok (some (paddingW none))))
          (some ⟨1, .ok (some (paddingW none))⟩) true true)
          [.node (mkData 20 (.structural false .single) (paddingW none) none false false)
            [dirtyStateful]]), none) ⟨30, 5, [.stateBuild 1 1 false]⟩ := by
  rw [buildElementTree,
    elementFromStatefulWidget_build_ok 8 _ (some dirtyRoot) ⟨30, 5, []⟩
      ⟨1, .ok (some (paddingW none))⟩ (some (paddingW none))
      (by rw [statefulTarget_dirtyRoot]; rfl) rfl]
  rw [statefulTarget_dirtyRoot]
  have hc : (asStateful (some dirtyRoot)).bind Element.getChildElement
      = some paddingOverDirty := by
    simp [asStateful, dirtyRoot, mkData, Element.cls, Element.getChildElement]
  rw [hc, buildElementTree_padding_over_dirty]
  rfl

theorem rebuildDirty_dirtyRoot :
    rebuildDirty dirtyRoot ⟨30, 5, []⟩
      = .ret (.ok (.node (mkData 1 .stateful (.stateful 8 (.ok (some (paddingW none))))
          (some ⟨1, .ok (some (paddingW none))⟩) true false)
          [.node (mkData 20 (.structural false .single) (paddingW none) none false false)
            [dirtyStateful]])) ⟨30, 5, [.stateBuild 1 1 false]⟩ := by
  rw [rebuildDirty]
  have hw : dirtyRoot.GetWidget = .stateful 8 (.ok (some (paddingW none))) := rfl
  rw [hw, buildElementTree_dirtyRoot]
  simp [dirtyRoot, mkData, Element.isStateful, Element.cls, asStateful, Element.id,
    Element.setRendered]

/-- C7, at the failing input: `rebuildDirty` of a dirty stateful root returns
nil, and a stateful element with `built = false` is still reachable from the
root, below the padding element that kept its old child. -/
theorem C7_dirty_element_survives_rebuild :
    rebuildDirty dirtyRoot ⟨30, 5, []⟩
      = .ret (.ok (.node (mkData 1 .stateful (.stateful 8 (.ok (some (paddingW none))))
          (some ⟨1, .ok (some (paddingW none))⟩) true false)
          [.node (mkData 20 (.structural false .single) (paddingW none) none false false)
            [dirtyStateful]])) ⟨30, 5, [.stateBuild 1 1 false]⟩ ∧
    descend (.node (mkData 1 .stateful (.stateful 8 (.ok (some (paddingW none))))
          (some ⟨1, .ok (some (paddingW none))⟩) true false)
          [.node (mkData 20 (.structural false .single) (paddingW none) none false false)
            [dirtyStateful]]) [0, 0] = some dirtyStateful ∧
    dirtyStateful.isStateful = true ∧ dirtyStateful.d.built = false := by
  refine ⟨rebuildDirty_dirtyRoot, ?_, ?_, ?_⟩
  · simp [descend, getElementChildren, Element.hasChildElement, Element.cls, mkData,
      Element.getChildElement]
  · simp [dirtyStateful, mkData, Element.isStateful, Element.cls]
  · simp [dirtyStateful, mkData]

theorem logExt_trans_clean {st s1 s : St} {err : Option Err}
    (h1 : LogExt st s1 none) (h2 : LogExt s1 s err) : LogExt st s err := by
  obtain ⟨e1, hl1, hf1⟩ := h1
  obtain ⟨e2, hl2, hf2⟩ := h2
  refine ⟨e1 ++ e2, by rw [hl2, hl1, List.append_assoc], ?_⟩
  rw [hf2]
  constructor
  · rintro ⟨ev, hm, hf⟩
    exact ⟨ev, List.mem_append_right _ hm, hf⟩
  · rintro ⟨ev, hm, hf⟩
    rcases List.mem_append.mp hm with hm | hm
    · exact absurd (hf1.mpr ⟨ev, hm, hf⟩) (by simp)
    · exact ⟨ev, hm, hf⟩

theorem logExt_refl (st : St) : LogExt st st none :=
  ⟨[], by simp, by simp⟩

theorem logExt_of_log_eq {st s : St} (h : s.log = st.log) : LogExt st s none :=
  ⟨[], by simp [h], by simp⟩

theorem logExt_record_ok (st : St) (ev : Event) (h : ev.isFailure = false) :
    LogExt st (st.record ev) none :=
  ⟨[ev], rfl, by simp [h]⟩

theorem logExt_record_fail (st : St) (ev : Event) (err : Err) (h : ev.isFailure = true) :
    LogExt st (st.record ev) (some err) :=
  ⟨[ev], rfl, by simp [h]⟩

theorem statelessTarget_log (sw : Widget) (o : Option Element) (st : St) :
    (statelessTarget sw o st).2.log = st.log := by
  unfold statelessTarget
  repeat' split
  all_goals simp [NewStatelessElement]

theorem elementTarget_log (ew : Widget) (p : Proto) (o : Option Element) (st : St) :
    (elementTarget ew p o st).2.log = st.log := by
  unfold elementTarget
  repeat' split
  all_goals simp [createElement]

theorem statefulTarget_log (ty : Nat) (cs : BuildResult) (o : Option Element) (st : St) :
    LogExt st (statefulTarget ty cs o st).2 none := by
  unfold statefulTarget
  repeat' split
  all_goals first
    | exact logExt_refl _
    | exact ⟨[.createState ty st.nextSid], by simp [NewStatefulElement, CreateState],
        by simp [Event.isFailure]⟩

theorem buildElementTree_logPost (w : Option Widget) (old : Option Element) (st : St) :
    LogPost st (buildElementTree w old st) := by
  apply buildElementTree.induct
    (fun w old st => LogPost st (buildElementTree w old st))
    (fun ty p ks old st => LogPost st (elementFromElementWidget ty p ks old st))
    (fun ws olds i acc st => LogPost st (processElementChildren ws olds i acc st))
    (fun ty cs old st => LogPost st (elementFromStatefulWidget ty cs old st))
    (fun ty b old st => LogPost st (elementFromStatelessWidget ty b old st))
  case case1 =>
    intro old st
    rw [buildElementTree]
    exact logExt_refl _
  case case2 =>
    intro old st ty b ih
    rw [buildElementTree]
    exact ih
  case case3 =>
    intro old st ty b ih
    rw [buildElementTree]
    exact ih
  case case4 =>
    intro old st ty p ks ih
    rw [buildElementTree]
    exact ih
  case case5 =>
    intro old st ty
    rw [buildElementTree]
    exact logExt_record_fail _ _ _ rfl
  case case6 =>
    intro ty p ks old st es m s h ih
    rw [elementFromElementWidget]
    simp only [es] at h
    simp only [h]
    trivial
  case case7 =>
    intro ty p ks old st es cs err s h ih
    rw [elementFromElementWidget]
    simp only [es] at h ih
    rw [h] at ih
    simp only [h]
    exact logExt_trans_clean (logExt_of_log_eq (elementTarget_log _ _ _ _)) ih
  case case8 =>
    intro ty p ks old st es cs s h hset ih
    rw [elementFromElementWidget]
    simp only [es] at h hset
    simp only [h, hset]
    trivial
  case case9 =>
    intro ty p ks old st es cs s h child hset ih
    rw [elementFromElementWidget]
    simp only [es] at h hset ih
    rw [h] at ih
    simp only [h, hset]
    exact logExt_trans_clean (logExt_of_log_eq (elementTarget_log _ _ _ _)) ih
  case case10 =>
    intro olds i acc st
    rw [processElementChildren]
    exact logExt_refl _
  case case11 =>
    intro olds i acc st wc rest oc m s h ih
    rw [processElementChildren]
    simp only [oc] at h
    simp only [h]
    trivial
  case case12 =>
    intro olds i acc st wc rest oc c err s h ih
    rw [processElementChildren]
    simp only [oc] at h ih
    rw [h] at ih
    simp only [h]
    exact ih
  case case13 =>
    intro olds i acc st wc rest oc c s h ih2 ih1
    rw [processElementChildren]
    simp only [oc] at h ih2
    rw [h] at ih2
    simp only [h]
    cases hl : processElementChildren rest olds (i + 1) (acc ++ c.toList) s with
    | panic m s2 => trivial
    | ret a s2 =>
      rw [hl] at ih1
      exact logExt_trans_clean ih2 ih1
  case case14 =>
    intro ty cs old st osE es hs
    simp only [osE, es] at hs
    rw [elementFromStatefulWidget_nil_state ty cs old st hs]
    trivial
  case case15 =>
    intro ty cs old st osE es state hs e hb
    simp only [osE, es] at hs
    rw [elementFromStatefulWidget_build_error ty cs old st state e hs hb]
    exact logExt_trans_clean (statefulTarget_log _ _ _ _) (logExt_record_fail _ _ _ (by rfl))
  case case16 =>
    intro ty cs old st osE es state hs cw hb oc m s h ih
    simp only [osE, es, oc] at hs h
    rw [elementFromStatefulWidget_build_ok ty cs old st state cw hs hb]
    simp only [h]
    trivial
  case case17 =>
    intro ty cs old st osE es state hs cw hb oc c err s h ih
    simp only [osE, es, oc] at hs h ih
    rw [h] at ih
    rw [elementFromStatefulWidget_build_ok ty cs old st state cw hs hb]
    simp only [h]
    exact logExt_trans_clean (logExt_trans_clean (statefulTarget_log _ _ _ _)
      (logExt_record_ok _ _ (by rfl))) ih
  case case18 =>
    intro ty cs old st osE es state hs cw hb oc c s h ih
    simp only [osE, es, oc] at hs h ih
    rw [h] at ih
    rw [elementFromStatefulWidget_build_ok ty cs old st state cw hs hb]
    simp only [h]
    exact logExt_trans_clean (logExt_trans_clean (statefulTarget_log _ _ _ _)
      (logExt_record_ok _ _ (by rfl))) ih
  case case19 =>
    intro ty old st e
    rw [elementFromStatelessWidget]
    exact logExt_trans_clean (logExt_of_log_eq (statelessTarget_log _ _ _))
      (logExt_record_fail _ _ _ (by rfl))
  case case20 =>
    intro ty old st osE bw oc m s es h ih
    simp only [osE, es, oc] at h
    rw [elementFromStatelessWidget]
    simp only [h]
    trivial
  case case21 =>
    intro ty old st osE bw oc c err s es h ih
    simp only [osE, es, oc] at h ih
    rw [h] at ih
    rw [elementFromStatelessWidget]
    simp only [h]
    exact logExt_trans_clean (logExt_trans_clean (logExt_of_log_eq (statelessTarget_log _ _ _))
      (logExt_record_ok _ _ (by rfl))) ih
  case case22 =>
    intro ty old st osE bw oc c s es h ih
    simp only [osE, es, oc] at h ih
    rw [h] at ih
    rw [elementFromStatelessWidget]
    simp only [h]
    exact logExt_trans_clean (logExt_trans_clean (logExt_of_log_eq (statelessTarget_log _ _ _))
      (logExt_record_ok _ _ (by rfl))) ih
/-- C5: `buildElementTree(W, E)` returns a non-nil error exactly when, among the
calls traced during that reconciliation, a `Builder.Build` or a `State.Build`
returned an error or a non-nil widget with none of the three capabilities was
reached; a widget of unknown kind at the root gives no element together with
the error, and a nil widget gives no element and no error. -/
theorem C5_error_iff_failed_build_or_unknown_widget (w : Option Widget)
    (old : Option Element) (st : St) :
    (∀ r err s, buildElementTree w old st = .ret (r, err) s →
      ∃ evs, s.log = st.log ++ evs ∧ (err ≠ none ↔ ∃ ev ∈ evs, ev.isFailure = true)) ∧
    (∀ ty, buildElementTree (some (.unknown ty)) old st
      = .ret (none, some (.unknownWidget ty)) (st.record (.unknownWidget ty))) ∧
    buildElementTree none old st = .ret (none, none) st := by
  refine ⟨?_, ?_, ?_⟩
  · intro r err s h
    have hp := buildElementTree_logPost w old st
    rw [h] at hp
    obtain ⟨evs, hl, hf⟩ := hp
    refine ⟨evs, hl, ?_⟩
    rw [← hf]
    cases err <;> simp
  · intro ty
    rw [buildElementTree]
  · rw [buildElementTree]

theorem buildElementTree_failingBelowW :
    buildElementTree (some failingBelowW) none ⟨10, 5, []⟩
      = .ret (none, some (.user 42))
          ⟨12, 6, [.build 2 10 false, .createState 3 5, .stateBuild 5 11 true]⟩ := by
  simp [buildElementTree, elementFromStatelessWidget, elementFromStatefulWidget,
    failingBelowW, statelessTarget, statefulTarget, asStateless, asStateful,
    NewStatelessElement, NewStatefulElement, CreateState, St.record, Element.id]

theorem C5_error_iff_failed_build_or_unknown_widget_witness :
    ∃ evs, ([.build 2 10 false, .createState 3 5, .stateBuild 5 11 true] : List Event)
        = [] ++ evs ∧
      (some (Err.user 42) ≠ none ↔ ∃ ev ∈ evs, ev.isFailure = true) :=
  (C5_error_iff_failed_build_or_unknown_widget (some failingBelowW) none ⟨10, 5, []⟩).1
    _ _ _ buildElementTree_failingBelowW

theorem reach_refl (e : Element) : Reach e e := ⟨[], rfl⟩

theorem reach_iff (e x : Element) : Reach e x ↔ x = e ∨ Below (some e) x := by
  constructor
  · rintro ⟨p, hp⟩
    cases p with
    | nil =>
      simp only [descend_nil, Option.some.injEq] at hp
      exact Or.inl hp.symm
    | cons i p =>
      rw [descend_cons] at hp
      cases hc : (getElementChildren (some e))[i]? with
      | none => simp [hc] at hp
      | some c =>
        simp only [hc, Option.some_bind] at hp
        exact Or.inr ⟨c, List.getElem?_mem hc, p, hp⟩
  · rintro (h | ⟨c, hc, p, hp⟩)
    · subst h
      exact reach_refl _
    · obtain ⟨i, hi, hget⟩ := List.getElem_of_mem hc
      refine ⟨i :: p, ?_⟩
      rw [descend_cons, List.getElem?_eq_getElem hi, hget]
      simpa using hp

theorem fresh_mono {st st1 s1 s : St} {x : Element} (h : Fresh st1 s1 x)
    (h1 : st.nextId ≤ st1.nextId) (h2 : st.nextSid ≤ st1.nextSid)
    (h3 : s1.nextId ≤ s.nextId) (h4 : s1.nextSid ≤ s.nextSid) : Fresh st s x := by
  obtain ⟨a, b, c⟩ := h
  refine ⟨by omega, by omega, ?_⟩
  intro t ht
  have := c t ht
  omega

theorem kept_mono {P Q : Element → Prop} {x : Element} (h : Kept P x)
    (hPQ : ∀ y, P y → Q y) : Kept Q x := by
  obtain ⟨y, hy, h1, h2⟩ := h
  exact ⟨y, hPQ y hy, h1, h2⟩

theorem getElementChildren_of_hasChildElement (e : Element) (h : e.hasChildElement = true) :
    getElementChildren (some e) = e.kids.head?.toList := by
  rw [getElementChildren_eq, if_pos h]

theorem getElementChildren_setChildElement (e : Element) (c : Option Element)
    (h : e.hasChildElement = true) :
    getElementChildren (some (e.setChildElement c)) = c.toList := by
  rw [getElementChildren_of_hasChildElement]
  · cases c <;> rfl
  · rw [← h]
    exact hasChildElement_congr rfl

theorem getElementChildren_updateWidget (e : Element) (w : Widget) :
    getElementChildren (some (e.updateWidget w)) = getElementChildren (some e) := by
  rw [getElementChildren_eq, getElementChildren_eq,
    @hasChildElement_congr (e.updateWidget w) e rfl,
    @hasChildrenElements_congr (e.updateWidget w) e rfl]
  rfl

theorem getElementChildren_setElementChildren (e r : Element) (ec : List Element)
    (h : setElementChildren e ec = some r) :
    ∀ c ∈ getElementChildren (some r), c ∈ ec ∨ c ∈ getElementChildren (some e) := by
  unfold setElementChildren at h
  split at h
  · rename_i h1
    split at h
    · cases h
    · split at h
      · simp only [Option.some.injEq] at h
        subst h
        rw [getElementChildren_setChildElement _ _ h1]
        intro c hc
        exact Or.inl (by simpa using hc)
      · simp only [Option.some.injEq] at h
        subst h
        intro c hc
        exact Or.inr hc
  · rename_i h1
    split at h
    · rename_i h2
      simp only [Option.some.injEq] at h
      subst h
      intro c hc
      left
      rw [getElementChildren_eq] at hc
      have e1 : (e.setChildrenElements ec).hasChildElement = e.hasChildElement :=
        hasChildElement_congr rfl
      have e2 : (e.setChildrenElements ec).hasChildrenElements = e.hasChildrenElements :=
        hasChildrenElements_congr rfl
      rw [e1, e2, if_neg h1, if_pos h2] at hc
      exact hc
    · simp only [Option.some.injEq] at h
      subst h
      intro c hc
      exact Or.inr hc
theorem statelessTarget_ok (sw : Widget) (old : Option Element) (st : St) :
    TargetOK old sw st (statelessTarget sw (asStateless old) st) ∧
      (statelessTarget sw (asStateless old) st).1.cls = .stateless := by
  have hnew : TargetOK old sw st (NewStatelessElement sw st) ∧
      (NewStatelessElement sw st).1.cls = .stateless :=
    ⟨Or.inr ⟨rfl, rfl, rfl, le_rfl, by simp [NewStatelessElement]⟩, rfl⟩
  cases old with
  | none => simpa [statelessTarget, asStateless] using hnew
  | some o =>
    by_cases hc : o.cls = .stateless
    · by_cases ht : sameType (some sw) (some o.GetWidget) = true
      · simp only [statelessTarget, asStateless, hc, if_true, ht]
        exact ⟨Or.inl ⟨o, rfl, rfl, rfl, rfl⟩, hc⟩
      · simpa [statelessTarget, asStateless, hc, ht] using hnew
    · simpa [statelessTarget, asStateless, hc] using hnew

theorem statefulTarget_ok (ty : Nat) (cs : BuildResult) (old : Option Element) (st : St) :
    TargetOK old (.stateful ty cs) st (statefulTarget ty cs (asStateful old) st) ∧
      (statefulTarget ty cs (asStateful old) st).1.cls = .stateful := by
  have hnew : TargetOK old (.stateful ty cs) st
      (NewStatefulElement (.stateful ty cs) (CreateState ty cs st).1 (CreateState ty cs st).2) ∧
      (NewStatefulElement (.stateful ty cs) (CreateState ty cs st).1
        (CreateState ty cs st).2).1.cls = .stateful := by
    refine ⟨Or.inr ⟨rfl, rfl, rfl, ?_, ?_⟩, rfl⟩
    · simp [NewStatefulElement, CreateState]
    · intro t ht
      simp [NewStatefulElement, CreateState] at ht
      subst ht
      simp [NewStatefulElement, CreateState]
  cases old with
  | none => simpa [statefulTarget, asStateful] using hnew
  | some o =>
    by_cases hc : o.cls = .stateful
    · by_cases ht : sameType (some (.stateful ty cs)) (some o.GetWidget) = true
      · simp only [statefulTarget, asStateful, hc, if_true, ht]
        exact ⟨Or.inl ⟨o, rfl, rfl, rfl, rfl⟩, hc⟩
      · simpa [statefulTarget, asStateful, hc, ht] using hnew
    · simpa [statefulTarget, asStateful, hc] using hnew

theorem elementTarget_ok (ew : Widget) (p : Proto) (old : Option Element) (st : St) :
    TargetOK old ew st (elementTarget ew p old st) := by
  have hnew : TargetOK old ew st (createElement ew p st) :=
    Or.inr ⟨rfl, rfl, rfl, le_rfl, by simp [createElement]⟩
  cases old with
  | none => simpa [elementTarget] using hnew
  | some o =>
    by_cases ht : sameType (some ew) (some o.GetWidget) = true
    · simp only [elementTarget, ht, if_true]
      exact Or.inl ⟨o, rfl, rfl, rfl, rfl⟩
    · simpa [elementTarget, ht] using hnew

theorem targetOK_mono {old : Option Element} {w : Widget} {st : St} {es : Element × St}
    (h : TargetOK old w st es) : st.nextId ≤ es.2.nextId ∧ st.nextSid ≤ es.2.nextSid := by
  rcases h with ⟨o, _, _, h1, h2⟩ | ⟨_, _, h1, h2, _⟩
  · omega
  · omega

/-- The root of the returned tree is the chosen target with some fields
written: new, or the prior root. -/
theorem targetOK_root {old : Option Element} {w : Widget} {st s : St} {es : Element × St}
    (h : TargetOK old w st es) (r : Element) (hid : r.id = es.1.id)
    (hstate : r.d.state = es.1.d.state)
    (h1 : es.2.nextId ≤ s.nextId) (h2 : es.2.nextSid ≤ s.nextSid) :
    Fresh st s r ∨ Kept (fun y => old = some y) r := by
  rcases h with ⟨o, ho, he, _, _⟩ | ⟨_, hi, hn, _, hst⟩
  · right
    refine ⟨o, ho, ?_, ?_⟩
    · rw [hid, he]; rfl
    · rw [hstate, he]; rfl
  · left
    refine ⟨by omega, by omega, ?_⟩
    intro t ht
    rw [hstate] at ht
    have := hst t ht
    omega

/-- The children a chosen target has before the new ones are stored are
children of the prior element. -/
theorem targetOK_children {old : Option Element} {w : Widget} {st : St} {es : Element × St}
    (h : TargetOK old w st es) :
    ∀ c ∈ getElementChildren (some es.1), c ∈ getElementChildren old := by
  rcases h with ⟨o, ho, he, _, _⟩ | ⟨hk, _, _, _, _⟩
  · subst ho
    rw [he, getElementChildren_updateWidget]
    exact fun c hc => hc
  · intro c hc
    rw [getElementChildren_eq, hk] at hc
    split at hc
    · simp at hc
    · split at hc <;> simp at hc
theorem below_of_reach_child {old : Option Element} {y z : Element}
    (hy : y ∈ getElementChildren old) (h : Reach y z) : Below old z := ⟨y, hy, h⟩

theorem oldChild_asStateless_mem (old : Option Element) (y : Element)
    (h : (asStateless old).bind Element.getChildElement = some y) :
    y ∈ getElementChildren old := by
  cases old with
  | none => simp [asStateless] at h
  | some o =>
    by_cases hc : o.cls = .stateless
    · simp only [asStateless, hc, if_true, Option.some_bind, Element.getChildElement] at h
      rw [getElementChildren_of_hasChildElement o (by simp [Element.hasChildElement, hc]), h]
      simp
    · simp [asStateless, hc] at h

theorem oldChild_asStateful_mem (old : Option Element) (y : Element)
    (h : (asStateful old).bind Element.getChildElement = some y) :
    y ∈ getElementChildren old := by
  cases old with
  | none => simp [asStateful] at h
  | some o =>
    by_cases hc : o.cls = .stateful
    · simp only [asStateful, hc, if_true, Option.some_bind, Element.getChildElement] at h
      rw [getElementChildren_of_hasChildElement o (by simp [Element.hasChildElement, hc]), h]
      simp
    · simp [asStateful, hc] at h

theorem oldChildAt_mem (w : Option Widget) (olds : List Element) (i : Nat) (y : Element)
    (h : oldChildAt w olds i = some y) : y ∈ olds := by
  unfold oldChildAt at h
  split at h
  · rename_i o ho
    split at h
    · simp only [Option.some.injEq] at h
      subst h
      exact List.getElem?_mem ho
    · cases h
  · cases h

/-- Where the objects of a child subtree come from, seen from the parent. -/
theorem track_child {olds : Element → Prop} {oc : Option Element} {st st2 s : St}
    {c : Option Element} (ih : TrackPost oc st2 (.ret (c, none) s))
    (h1 : st.nextId ≤ st2.nextId) (h2 : st.nextSid ≤ st2.nextSid)
    (hoc : ∀ y, oc = some y → ∀ z, Reach y z → olds z) :
    ∀ c' ∈ c.toList, ∀ x, Reach c' x → Kept olds x ∨ Fresh st s x := by
  intro c' hc' x hx
  obtain ⟨_, _, ih⟩ := ih
  have hc : c = some c' := by
    cases c with
    | none => simp at hc'
    | some v => simp at hc'; rw [hc']
  obtain ⟨hroot, hbelow⟩ := ih c' hc
  rcases (reach_iff c' x).mp hx with hx | hx
  · subst hx
    rcases hroot with hf | ⟨y, hy, hid, hstate⟩
    · exact Or.inr (fresh_mono hf h1 h2 le_rfl le_rfl)
    · exact Or.inl ⟨y, hoc y hy y (reach_refl y), hid, hstate⟩
  · rcases hbelow x hx with hk | hf
    · left
      apply kept_mono hk
      rintro z ⟨c0, hc0, hz⟩
      cases oc with
      | none => simp [getElementChildren] at hc0
      | some y =>
        apply hoc y rfl z
        exact (reach_iff y z).mpr (Or.inr ⟨c0, hc0, hz⟩)
    · exact Or.inr (fresh_mono hf h1 h2 le_rfl le_rfl)

/-- Assembly of the result of the Builder and Stateful paths. -/
theorem track_single {old oc : Option Element} {w : Widget} {st st2 s : St}
    {es : Element × St} {c : Option Element} (hT : TargetOK old w st es)
    (hn : st2.nextId = es.2.nextId) (hsid : st2.nextSid = es.2.nextSid)
    (hoc : ∀ y, oc = some y → y ∈ getElementChildren old)
    (ih : TrackPost oc st2 (.ret (c, none) s)) (r : Element) (hid : r.id = es.1.id)
    (hstate : r.d.state = es.1.d.state)
    (hch : getElementChildren (some r) = c.toList) :
    TrackPost old st (.ret (some r, none) s) := by
  have hm := targetOK_mono hT
  have ih' := ih
  obtain ⟨i1, i2, _⟩ := ih'
  refine ⟨by omega, by omega, ?_⟩
  intro e' he'
  simp only [Option.some.injEq] at he'
  subst he'
  refine ⟨targetOK_root hT _ hid hstate (by omega) (by omega), ?_⟩
  rintro x ⟨c', hc', hx⟩
  rw [hch] at hc'
  exact track_child ih (by omega) (by omega)
    (fun y hy z hz => below_of_reach_child (hoc y hy) hz) c' hc' x hx
theorem buildElementTree_trackPost (w : Option Widget) (old : Option Element) (st : St) :
    TrackPost old st (buildElementTree w old st) := by
  apply buildElementTree.induct
    (fun w old st => TrackPost old st (buildElementTree w old st))
    (fun ty p ks old st => TrackPost old st (elementFromElementWidget ty p ks old st))
    (fun ws olds i acc st =>
      LoopPost olds acc st (processElementChildren ws olds i acc st))
    (fun ty cs old st => TrackPost old st (elementFromStatefulWidget ty cs old st))
    (fun ty b old st => TrackPost old st (elementFromStatelessWidget ty b old st))
  case case1 =>
    intro old st
    rw [buildElementTree]
    exact ⟨le_rfl, le_rfl, by intro e' he'; cases he'⟩
  case case2 =>
    intro old st ty b ih
    rw [buildElementTree]
    exact ih
  case case3 =>
    intro old st ty b ih
    rw [buildElementTree]
    exact ih
  case case4 =>
    intro old st ty p ks ih
    rw [buildElementTree]
    exact ih
  case case5 =>
    intro old st ty
    rw [buildElementTree]
    trivial
  case case6 =>
    intro ty p ks old st es m s h ih
    rw [elementFromElementWidget]
    simp only [es] at h
    simp only [h]
    trivial
  case case7 =>
    intro ty p ks old st es cs err s h ih
    rw [elementFromElementWidget]
    simp only [es] at h ih
    simp only [h]
    trivial
  case case8 =>
    intro ty p ks old st es cs s h hset ih
    rw [elementFromElementWidget]
    simp only [es] at h hset
    simp only [h, hset]
    trivial
  case case9 =>
    intro ty p ks old st es cs s h child hset ih
    rw [elementFromElementWidget]
    simp only [es] at h hset ih
    rw [h] at ih
    simp only [h, hset]
    have hT := elementTarget_ok (.element ty p ks) p old st
    have hm := targetOK_mono hT
    obtain ⟨i1, i2, cs', hcs, hall⟩ := ih
    simp only [List.nil_append] at hcs
    subst hcs
    refine ⟨by omega, by omega, ?_⟩
    intro e' he'
    simp only [Option.some.injEq] at he'
    subst he'
    have hd := setElementChildren_d _ _ _ hset
    refine ⟨targetOK_root hT _ (by simp [Element.id, hd]) (by rw [hd]) i1 i2, ?_⟩
    rintro x ⟨c, hc, hx⟩
    rcases getElementChildren_setElementChildren _ _ _ hset c hc with hc | hc
    · rcases hall c hc x hx with hk | hf
      · exact Or.inl hk
      · exact Or.inr (fresh_mono hf hm.1 hm.2 le_rfl le_rfl)
    · exact Or.inl ⟨x, ⟨c, targetOK_children hT c hc, hx⟩, rfl, rfl⟩
  case case10 =>
    intro olds i acc st
    rw [processElementChildren]
    exact ⟨le_rfl, le_rfl, [], by simp, by simp⟩
  case case11 =>
    intro olds i acc st wc rest oc m s h ih
    rw [processElementChildren]
    simp only [oc] at h
    simp only [h]
    trivial
  case case12 =>
    intro olds i acc st wc rest oc c err s h ih
    rw [processElementChildren]
    simp only [oc] at h ih
    simp only [h]
    trivial
  case case13 =>
    intro olds i acc st wc rest oc c s h ih2 ih1
    rw [processElementChildren]
    simp only [oc] at h ih2
    rw [h] at ih2
    simp only [h]
    cases hl : processElementChildren rest olds (i + 1) (acc ++ c.toList) s with
    | panic m s2 => trivial
    | ret a s2 =>
      obtain ⟨cs, err⟩ := a
      rw [hl] at ih1
      cases err with
      | some err => trivial
      | none =>
        obtain ⟨j1, j2, cs', hcs, hall⟩ := ih1
        have ih2' := ih2
        obtain ⟨k1, k2, _⟩ := ih2'
        refine ⟨by omega, by omega, c.toList ++ cs', by rw [hcs, List.append_assoc], ?_⟩
        intro c' hc' x hx
        rcases List.mem_append.mp hc' with hc' | hc'
        · have := @track_child (ReachAny olds) _ _ _ _ _ ih2 le_rfl le_rfl
            (fun y hy z hz => ⟨y, oldChildAt_mem _ _ _ _ hy, hz⟩) c' hc' x hx
          rcases this with hk | hf
          · exact Or.inl hk
          · exact Or.inr (fresh_mono hf le_rfl le_rfl j1 j2)
        · rcases hall c' hc' x hx with hk | hf
          · exact Or.inl hk
          · exact Or.inr (fresh_mono hf k1 k2 le_rfl le_rfl)
  case case14 =>
    intro ty cs old st osE es hs
    simp only [osE, es] at hs
    rw [elementFromStatefulWidget_nil_state ty cs old st hs]
    trivial
  case case15 =>
    intro ty cs old st osE es state hs e hb
    simp only [osE, es] at hs
    rw [elementFromStatefulWidget_build_error ty cs old st state e hs hb]
    trivial
  case case16 =>
    intro ty cs old st osE es state hs cw hb oc m s h ih
    simp only [osE, es, oc] at hs h
    rw [elementFromStatefulWidget_build_ok ty cs old st state cw hs hb]
    simp only [h]
    trivial
  case case17 =>
    intro ty cs old st osE es state hs cw hb oc c err s h ih
    simp only [osE, es, oc] at hs h ih
    rw [elementFromStatefulWidget_build_ok ty cs old st state cw hs hb]
    simp only [h]
    trivial
  case case18 =>
    intro ty cs old st osE es state hs cw hb oc c s h ih
    simp only [osE, es, oc] at hs h ih
    rw [h] at ih
    rw [elementFromStatefulWidget_build_ok ty cs old st state cw hs hb]
    simp only [h]
    have hT := statefulTarget_ok ty cs old st
    apply track_single hT.1 rfl rfl (oldChild_asStateful_mem old) ih
    · rfl
    · rfl
    · exact getElementChildren_setChildElement _ c
        (by simp [Element.hasChildElement, hT.2])
  case case19 =>
    intro ty old st e
    rw [elementFromStatelessWidget]
    trivial
  case case20 =>
    intro ty old st osE bw oc m s es h ih
    simp only [osE, es, oc] at h
    rw [elementFromStatelessWidget]
    simp only [h]
    trivial
  case case21 =>
    intro ty old st osE bw oc c err s es h ih
    simp only [osE, es, oc] at h ih
    rw [elementFromStatelessWidget]
    simp only [h]
    trivial
  case case22 =>
    intro ty old st osE bw oc c s es h ih
    simp only [osE, es, oc] at h ih
    rw [h] at ih
    rw [elementFromStatelessWidget]
    simp only [h]
    have hT := statelessTarget_ok (.stateless ty (.ok bw)) old st
    apply track_single hT.1 rfl rfl (oldChild_asStateless_mem old) ih
    · rfl
    · rfl
    · exact getElementChildren_setChildElement _ c
        (by simp [Element.hasChildElement, hT.2])

theorem statelessTarget_new (sw : Widget) (old : Option Element) (st : St)
    (hty : ∀ o, old = some o → sameType (some sw) (some o.GetWidget) = false) :
    statelessTarget sw (asStateless old) st = NewStatelessElement sw st := by
  cases old with
  | none => simp [statelessTarget, asStateless]
  | some o =>
    by_cases hc : o.cls = .stateless
    · simp [statelessTarget, asStateless, hc, hty o rfl]
    · simp [statelessTarget, asStateless, hc]

theorem statefulTarget_new (ty : Nat) (cs : BuildResult) (old : Option Element) (st : St)
    (hty : ∀ o, old = some o → sameType (some (.stateful ty cs)) (some o.GetWidget) = false) :
    statefulTarget ty cs (asStateful old) st
      = NewStatefulElement (.stateful ty cs) (CreateState ty cs st).1 (CreateState ty cs st).2 := by
  cases old with
  | none => simp [statefulTarget, asStateful]
  | some o =>
    by_cases hc : o.cls = .stateful
    · simp [statefulTarget, asStateful, hc, hty o rfl]
    · simp [statefulTarget, asStateful, hc]

theorem elementTarget_new (ew : Widget) (p : Proto) (old : Option Element) (st : St)
    (hty : ∀ o, old = some o → sameType (some ew) (some o.GetWidget) = false) :
    elementTarget ew p old st = createElement ew p st := by
  cases old with
  | none => simp [elementTarget]
  | some o => simp [elementTarget, hty o rfl]

/-- A non-nil widget reconciled against nothing, or against an element holding
a widget of another type, gives on success the object allocated first. -/
theorem buildElementTree_new_root (W : Widget) (old : Option Element) (st s : St)
    (r : Option Element)
    (hty : ∀ o, old = some o → sameType (some W) (some o.GetWidget) = false)
    (h : buildElementTree (some W) old st = .ret (r, none) s) :
    ∃ e', r = some e' ∧ e'.id = st.nextId := by
  cases W with
  | stateless ty b =>
    rw [buildElementTree] at h
    obtain ⟨e', hr, hd⟩ := elementFromStatelessWidget_root ty b _ st s r h
    rw [statelessTarget_new _ old st hty] at hd
    exact ⟨e', hr, by simp [Element.id, hd, NewStatelessElement]⟩
  | stateful ty cs =>
    rw [buildElementTree] at h
    obtain ⟨e', hr, hd⟩ := elementFromStatefulWidget_root ty cs _ st s r h
    rw [statefulTarget_new ty cs old st hty] at hd
    exact ⟨e', hr, by simp [Element.id, hd, NewStatefulElement, CreateState]⟩
  | element ty p ks =>
    rw [buildElementTree] at h
    obtain ⟨e', hr, hd⟩ := elementFromElementWidget_root ty p ks _ st s r h
    rw [elementTarget_new _ p old st hty] at hd
    exact ⟨e', hr, by simp [Element.id, hd, createElement]⟩
  | unknown ty =>
    rw [buildElementTree] at h
    simp at h

/-- C2 (amended): reconciling a non-nil widget `W` onto a prior element `E`
holding a widget of another concrete type returns, on success, a newly created
element; neither `E` nor the State object of `E` occurs anywhere in the
returned tree, and every element of the returned tree was created during the
call or is an element from strictly below `E`, with the State it had.  (`E` and
its State were allocated before the call and are not repeated below `E`.) -/
theorem C2_other_type_discards_prior_root (W : Widget) (E : Element) (st s : St)
    (r : Option Element)
    (hty : sameType (some W) (some E.GetWidget) = false)
    (hE : E.id < st.nextId) (hEs : ∀ u, E.d.state = some u → u.sid < st.nextSid)
    (huniq : ∀ y, Below (some E) y →
      y.id ≠ E.id ∧ ∀ t u, y.d.state = some t → E.d.state = some u → t.sid ≠ u.sid)
    (h : buildElementTree (some W) (some E) st = .ret (r, none) s) :
    ∃ e', r = some e' ∧ e'.id = st.nextId ∧
      (∀ x, Reach e' x →
        x.id ≠ E.id ∧ ∀ t u, x.d.state = some t → E.d.state = some u → t.sid ≠ u.sid) ∧
      (∀ x, Reach e' x → Fresh st s x ∨ Kept (Below (some E)) x) := by
  have hty' : ∀ o, some E = some o → sameType (some W) (some o.GetWidget) = false := by
    intro o ho
    cases ho
    exact hty
  obtain ⟨e', hr, hid⟩ := buildElementTree_new_root W (some E) st s r hty' h
  have hp := buildElementTree_trackPost (some W) (some E) st
  rw [h] at hp
  obtain ⟨_, _, hp⟩ := hp
  obtain ⟨hroot, hbelow⟩ := hp e' hr
  have hprov : ∀ x, Reach e' x → Fresh st s x ∨ Kept (Below (some E)) x := by
    intro x hx
    rcases (reach_iff e' x).mp hx with hx | hx
    · subst hx
      rcases hroot with hf | ⟨y, hy, hyid, _⟩
      · exact Or.inl hf
      · simp only [Option.some.injEq] at hy
        subst hy
        omega
    · rcases hbelow x hx with hk | hf
      · exact Or.inr hk
      · exact Or.inl hf
  refine ⟨e', hr, hid, ?_, hprov⟩
  have hfresh : ∀ x, Fresh st s x →
      x.id ≠ E.id ∧ ∀ t u, x.d.state = some t → E.d.state = some u → t.sid ≠ u.sid := by
    rintro x ⟨h1, _, h3⟩
    refine ⟨by omega, ?_⟩
    intro t u ht hu
    have := h3 t ht
    have := hEs u hu
    omega
  have hkept : ∀ x, Kept (Below (some E)) x →
      x.id ≠ E.id ∧ ∀ t u, x.d.state = some t → E.d.state = some u → t.sid ≠ u.sid := by
    rintro x ⟨y, hy, hyid, hystate⟩
    have := huniq y hy
    rw [hyid, hystate] at this
    exact this
  intro x hx
  rcases (reach_iff e' x).mp hx with hx | hx
  · subst hx
    rcases hroot with hf | ⟨y, hy, hyid, _⟩
    · exact hfresh _ hf
    · simp only [Option.some.injEq] at hy
      subst hy
      omega
  · rcases hbelow x hx with hk | hf
    · exact hkept x hk
    · exact hfresh x hf

theorem buildElementTree_builderB_over_builderA :
    buildElementTree (some builderB) (some builderAOverLeaf) ⟨30, 5, []⟩
      = .ret (some (.node (mkData 30 .stateless builderB none false false) [leafE]), none)
          ⟨31, 5, [.build 1 30 false]⟩ := by
  simp [buildElementTree, elementFromStatelessWidget, elementFromElementWidget,
    processElementChildren, builderB, builderAOverLeaf, leafE, leafW, mkData,
    statelessTarget, asStateless, sameType, typeOf, Element.cls, Element.GetWidget,
    Element.updateWidget, NewStatelessElement, elementTarget, St.record, getWidgetChildren,
    getElementChildren, setElementChildren, Element.hasChildElement,
    Element.hasChildrenElements, Element.getChildElement, Element.setChildElement,
    Element.id]

/-- C2 as stated fails: a Builder widget reconciled onto a `*StatelessElement`
holding a Builder widget of another type gives a new root whose child is the
child element of the discarded prior element. -/
theorem C2_counterexample_child_of_discarded_reused :
    sameType (some builderB) (some builderAOverLeaf.GetWidget) = false ∧
    buildElementTree (some builderB) (some builderAOverLeaf) ⟨30, 5, []⟩
      = .ret (some (.node (mkData 30 .stateless builderB none false false) [leafE]), none)
          ⟨31, 5, [.build 1 30 false]⟩ ∧
    descend builderAOverLeaf [0] = some leafE ∧
    descend (.node (mkData 30 .stateless builderB none false false) [leafE]) [0]
      = some leafE := by
  refine ⟨?_, buildElementTree_builderB_over_builderA, ?_, ?_⟩
  · simp [sameType, typeOf, builderB, builderAOverLeaf, mkData, Element.GetWidget]
  · simp [descend, builderAOverLeaf, mkData, getElementChildren, Element.hasChildElement,
      Element.cls, Element.getChildElement]
  · simp [descend, mkData, getElementChildren, Element.hasChildElement,
      Element.cls, Element.getChildElement]

theorem below_builderAOverLeaf (y : Element) (h : Below (some builderAOverLeaf) y) :
    y = leafE := by
  obtain ⟨c, hc, hy⟩ := h
  have hc' : c = leafE := by
    simpa [builderAOverLeaf, mkData, getElementChildren, Element.hasChildElement,
      Element.cls, Element.getChildElement] using hc
  subst hc'
  rcases (reach_iff leafE y).mp hy with hy | ⟨c2, hc2, _⟩
  · exact hy
  · simp [leafE, mkData, getElementChildren, Element.hasChildElement,
      Element.hasChildrenElements, Element.cls] at hc2

theorem C2_other_type_discards_prior_root_witness :
    ∃ e', some (Element.node (mkData 30 .stateless builderB none false false) [leafE])
        = some e' ∧ e'.id = 30 ∧
      (∀ x, Reach e' x →
        x.id ≠ builderAOverLeaf.id ∧
        ∀ t u, x.d.state = some t → builderAOverLeaf.d.state = some u → t.sid ≠ u.sid) ∧
      (∀ x, Reach e' x →
        Fresh ⟨30, 5, []⟩ ⟨31, 5, [.build 1 30 false]⟩ x ∨
          Kept (Below (some builderAOverLeaf)) x) :=
  C2_other_type_discards_prior_root builderB builderAOverLeaf ⟨30, 5, []⟩ _ _
    (by simp [sameType, typeOf, builderB, builderAOverLeaf, mkData, Element.GetWidget])
    (by simp [builderAOverLeaf, mkData, Element.id])
    (by simp [builderAOverLeaf, mkData])
    (by
      intro y hy
      rw [below_builderAOverLeaf y hy]
      simp [leafE, builderAOverLeaf, mkData, Element.id])
    buildElementTree_builderB_over_builderA

theorem buildElementTree_same_type_root (W : Widget) (E : Element) (st s : St)
    (r : Option Element) (hty : sameType (some W) (some E.GetWidget) = true)
    (hprod : classMatches E)
    (h : buildElementTree (some W) (some E) st = .ret (r, none) s) :
    ∃ e', r = some e' ∧ e'.id = E.id ∧ e'.d.state = E.d.state := by
  have hty' : typeOf (some W) = typeOf (some E.GetWidget) := by
    simpa [sameType] using hty
  cases W with
  | stateless ty b =>
    obtain ⟨b', hw⟩ := typeOf_stateless_inv E.GetWidget ty hty'.symm
    have hc : E.cls = .stateless := by
      unfold classMatches at hprod
      rw [hw] at hprod
      exact hprod
    rw [buildElementTree] at h
    obtain ⟨e', hr, hd⟩ := elementFromStatelessWidget_root ty b _ st s r h
    rw [statelessTarget_reuse _ E st hc hty] at hd
    exact ⟨e', hr, by simp [Element.id, hd], by simp [hd]⟩
  | stateful ty cs =>
    obtain ⟨b', hw⟩ := typeOf_stateful_inv E.GetWidget ty hty'.symm
    have hc : E.cls = .stateful := by
      unfold classMatches at hprod
      rw [hw] at hprod
      exact hprod
    rw [buildElementTree] at h
    obtain ⟨e', hr, hd⟩ := elementFromStatefulWidget_root ty cs _ st s r h
    rw [statefulTarget_reuse ty cs E st hc hty] at hd
    exact ⟨e', hr, by simp [Element.id, hd], by simp [hd]⟩
  | element ty p ks =>
    rw [buildElementTree] at h
    obtain ⟨e', hr, hd⟩ := elementFromElementWidget_root ty p ks _ st s r h
    rw [elementTarget_reuse _ p E st hty] at hd
    exact ⟨e', hr, by simp [Element.id, hd], by simp [hd]⟩
  | unknown ty =>
    rw [buildElementTree] at h
    simp at h

theorem newId_mono {st st1 s1 s : St} {c : Element} (h : NewId st1 s1 c)
    (h1 : st.nextId ≤ st1.nextId) (h2 : s1.nextId ≤ s.nextId) : NewId st s c :=
  ⟨by have := h.1; omega, by have := h.2; omega⟩

theorem childAt_mono {st st1 s1 s : St} {w : Option Widget} {eo : Option Element}
    {c : Element} (h : ChildAt st1 s1 w eo c)
    (h1 : st.nextId ≤ st1.nextId) (h2 : s1.nextId ≤ s.nextId) : ChildAt st s w eo c := by
  unfold ChildAt at *
  split
  · rename_i e
    simp only at h
    split
    · rename_i ht
      simpa [ht] using h
    · rename_i ht
      simp only [ht] at h
      exact newId_mono h h1 h2
  · exact newId_mono h h1 h2

/-- The child made for one widget child of the loop. -/
theorem buildElementTree_childAt (W : Widget) (olds : List Element) (i : Nat) (st s : St)
    (c : Option Element) (hcm : ∀ e ∈ olds, classMatches e)
    (h : buildElementTree (some W) (oldChildAt (some W) olds i) st = .ret (c, none) s) :
    st.nextId ≤ s.nextId ∧ ∃ c', c = some c' ∧ ChildAt st s (some W) (olds[i]?) c' := by
  have hp := buildElementTree_trackPost (some W) (oldChildAt (some W) olds i) st
  rw [h] at hp
  obtain ⟨hmono, _, hp⟩ := hp
  refine ⟨hmono, ?_⟩
  have hnew : oldChildAt (some W) olds i = none →
      ∃ c', c = some c' ∧ NewId st s c' := by
    intro hnone
    rw [hnone] at h
    obtain ⟨c', hc, hid⟩ := buildElementTree_new_root W none st s c (by intro o ho; cases ho) h
    refine ⟨c', hc, by omega, ?_⟩
    rcases (hp c' hc).1 with hf | ⟨y, hy, _⟩
    · exact hf.2.1
    · rw [hnone] at hy
      cases hy
  cases ho : olds[i]? with
  | none =>
    have : oldChildAt (some W) olds i = none := by simp [oldChildAt, ho]
    simpa [ChildAt] using hnew this
  | some e =>
    by_cases ht : sameType (some W) (some e.GetWidget) = true
    · have hoc : oldChildAt (some W) olds i = some e := by simp [oldChildAt, ho, ht]
      rw [hoc] at h
      obtain ⟨c', hc, hid, hstate⟩ := buildElementTree_same_type_root W e st s c ht
        (hcm e (List.getElem?_mem ho)) h
      refine ⟨c', hc, ?_⟩
      simp only [ChildAt, ht, if_true]
      exact ⟨hid, hstate⟩
    · have hoc : oldChildAt (some W) olds i = none := by simp [oldChildAt, ho, ht]
      simpa [ChildAt, ht] using hnew hoc

/-- The loop of `processElementChildren` over non-nil widget children appends
one element per widget child, matched against the prior child at its index. -/
theorem processElementChildren_children (ws : List (Option Widget)) (olds : List Element)
    (hnn : ∀ w ∈ ws, w ≠ none) (hcm : ∀ e ∈ olds, classMatches e) :
    ∀ (i : Nat) (acc : List Element) (st s : St) (cs : List Element),
      processElementChildren ws olds i acc st = .ret (cs, none) s →
      st.nextId ≤ s.nextId ∧ ∃ cs', cs = acc ++ cs' ∧ cs'.length = ws.length ∧
        ∀ j c w, cs'[j]? = some c → ws[j]? = some w → ChildAt st s w (olds[i + j]?) c := by
  induction ws with
  | nil =>
    intro i acc st s cs h
    rw [processElementChildren] at h
    simp only [Outcome.ret.injEq, Prod.mk.injEq, and_true] at h
    obtain ⟨h1, h2⟩ := h
    subst h1 h2
    exact ⟨le_rfl, [], by simp, rfl, by simp⟩
  | cons w rest ih =>
    intro i acc st s cs h
    cases w with
    | none => exact absurd rfl (hnn none (List.mem_cons_self _ _))
    | some W =>
      rw [processElementChildren] at h
      cases hb : buildElementTree (some W) (oldChildAt (some W) olds i) st with
      | panic m s1 => rw [hb] at h; simp at h
      | ret a s1 =>
        obtain ⟨c, err⟩ := a
        rw [hb] at h
        cases err with
        | some err => simp at h
        | none =>
          obtain ⟨hm1, c', hc, hchild⟩ := buildElementTree_childAt W olds i st s1 c hcm hb
          subst hc
          obtain ⟨hm2, cs', hcs, hlen, hall⟩ :=
            ih (fun w hw => hnn w (List.mem_cons_of_mem _ hw)) (i + 1) _ s1 s cs h
          refine ⟨by omega, c' :: cs', by simp [hcs], by simp [hlen], ?_⟩
          intro j c w hc hw
          cases j with
          | zero =>
            simp only [List.getElem?_cons_zero, Option.some.injEq] at hc hw
            subst hc hw
            exact childAt_mono hchild le_rfl hm2
          | succ j =>
            simp only [List.getElem?_cons_succ] at hc hw
            have := hall j c w hc hw
            rw [show i + 1 + j = i + (j + 1) by omega] at this
            exact childAt_mono this hm1 le_rfl
theorem setElementChildren_stores (e r : Element) (ec : List Element)
    (h : setElementChildren e ec = some r)
    (hstore : r.hasChildrenElements = true ∨ (r.hasChildElement = true ∧ ec ≠ [])) :
    getElementChildren (some r) = ec := by
  have hd := setElementChildren_d e r ec h
  have e1 : r.hasChildElement = e.hasChildElement := hasChildElement_congr (by rw [hd])
  have e2 : r.hasChildrenElements = e.hasChildrenElements :=
    hasChildrenElements_congr (by rw [hd])
  have hexcl : e.hasChildElement = true → e.hasChildrenElements = true → False := by
    unfold Element.hasChildElement Element.hasChildrenElements
    cases e.cls with
    | stateless => simp
    | stateful => simp
    | structural c sh => cases sh <;> simp
  rw [e1, e2] at hstore
  cases h1 : e.hasChildElement with
  | true =>
    cases ec with
    | nil =>
      rcases hstore with h2 | ⟨_, h3⟩
      · exact absurd h2 (fun h2 => hexcl h1 h2)
      · exact absurd rfl h3
    | cons a t =>
      cases t with
      | nil =>
        simp only [setElementChildren, h1, if_true, List.length_singleton, gt_iff_lt,
          lt_self_iff_false, if_false, Option.some.injEq] at h
        subst h
        rw [getElementChildren_setChildElement _ _ h1]
        rfl
      | cons b t2 =>
        simp [setElementChildren, h1] at h
  | false =>
    cases h2 : e.hasChildrenElements with
    | true =>
      simp only [setElementChildren, h1, h2, if_true, Bool.false_eq_true, if_false,
        Option.some.injEq] at h
      subst h
      rw [getElementChildren_eq]
      have e3 : (e.setChildrenElements ec).hasChildElement = e.hasChildElement :=
        hasChildElement_congr rfl
      have e4 : (e.setChildrenElements ec).hasChildrenElements = e.hasChildrenElements :=
        hasChildrenElements_congr rfl
      rw [e3, e4, h1, h2]
      rfl
    | false =>
      rw [h1, h2] at hstore
      simp at hstore

/-- C3 (amended): for a structural widget whose declared child widgets
`w_0..w_{n-1}` are all non-nil and a prior element with children
`e_0..e_{m-1}` (each as the reconciler makes them), a successful reconcile whose
resulting element stores children (it implements `HasChildrenElements`, or it
implements `HasChildElement` and `n ≥ 1`) gives that element exactly `n`
children; child `i` is `e_i` itself, with its State, when `i < m` and `w_i` has
the concrete type of the widget stored in `e_i`, and is an object allocated
during the call otherwise. -/
theorem C3_children_matched_by_index (ty : Nat) (p : Proto) (ks : WidgetKids)
    (old : Option Element) (st s : St) (r : Element)
    (hnn : ∀ w ∈ getWidgetChildren ks, w ≠ none)
    (hcm : ∀ e ∈ getElementChildren old, classMatches e)
    (hstore : r.hasChildrenElements = true ∨
      (r.hasChildElement = true ∧ getWidgetChildren ks ≠ []))
    (h : buildElementTree (some (.element ty p ks)) old st = .ret (some r, none) s) :
    (getElementChildren (some r)).length = (getWidgetChildren ks).length ∧
    ∀ (i : Nat) c w, (getElementChildren (some r))[i]? = some c →
      (getWidgetChildren ks)[i]? = some w →
      ChildAt st s w ((getElementChildren old)[i]?) c := by
  rw [buildElementTree, elementFromElementWidget] at h
  have hT := targetOK_mono (elementTarget_ok (.element ty p ks) p old st)
  cases hl : processElementChildren (getWidgetChildren ks) (getElementChildren old) 0 []
      (elementTarget (.element ty p ks) p old st).2 with
  | panic m s1 => rw [hl] at h; simp at h
  | ret a s1 =>
    obtain ⟨cs, err⟩ := a
    rw [hl] at h
    cases err with
    | some err => simp at h
    | none =>
      simp only at h
      cases hset : setElementChildren (elementTarget (.element ty p ks) p old st).1 cs with
      | none => rw [hset] at h; simp at h
      | some r' =>
        rw [hset] at h
        simp only [Outcome.ret.injEq, Prod.mk.injEq, Option.some.injEq, and_true] at h
        obtain ⟨h1, h2⟩ := h
        subst h1 h2
        obtain ⟨_, cs', hcs, hlen, hall⟩ :=
          processElementChildren_children _ _ hnn hcm 0 [] _ _ _ hl
        simp only [List.nil_append] at hcs
        subst hcs
        have hne : cs ≠ [] ↔ getWidgetChildren ks ≠ [] := by
          rw [← List.length_pos, ← List.length_pos, hlen]
        rw [← hne] at hstore
        rw [setElementChildren_stores _ _ _ hset hstore]
        refine ⟨hlen, ?_⟩
        intro i c w hc hw
        have := hall i c w hc hw
        rw [Nat.zero_add] at this
        exact childAt_mono this hT.1 le_rfl

/-- C3 as stated fails: a structural widget that declares one non-nil child and
whose element has neither child capability is reconciled successfully, and the
resulting element has no child. -/
theorem C3_counterexample_element_without_child_capability :
    getWidgetChildren (.child (some leafW)) = [some leafW] ∧
    buildElementTree (some childlessElementW) none ⟨30, 5, []⟩
      = .ret (some (.node (mkData 30 (.structural false .leaf) childlessElementW none
          false false) []), none) ⟨32, 5, []⟩ ∧
    getElementChildren (some (.node (mkData 30 (.structural false .leaf) childlessElementW
      none false false) [])) = [] := by
  simp [buildElementTree, elementFromElementWidget, processElementChildren,
    childlessElementW, leafW, mkData, oldChildAt, elementTarget, createElement,
    getWidgetChildren, getElementChildren, setElementChildren, Element.hasChildElement,
    Element.hasChildrenElements, Element.cls]

theorem buildElementTree_emptyStateful_over_stale (st : St) :
    buildElementTree (some emptyStatefulW) (some staleChild) st
      = .ret (some staleChild, none) (st.record (.stateBuild 0 2 false)) := by
  simp [buildElementTree, elementFromStatefulWidget, staleChild, emptyStatefulW, mkData,
    statefulTarget, asStateful, sameType, typeOf, Element.cls, Element.GetWidget,
    Element.updateWidget, Element.getChildElement, Element.setChildElement, Element.id]

theorem buildElementTree_leafW_new (st : St) :
    buildElementTree (some leafW) none st
      = .ret (some (.node (mkData st.nextId (.structural false .leaf) leafW none false false)
          []), none) { st with nextId := st.nextId + 1 } := by
  simp [buildElementTree, elementFromElementWidget, processElementChildren, leafW, mkData,
    elementTarget, createElement, getWidgetChildren, getElementChildren, setElementChildren,
    Element.hasChildElement, Element.hasChildrenElements, Element.cls]

theorem processElementChildren_rowW (st : St) :
    processElementChildren [some emptyStatefulW, some leafW] [staleChild] 0 [] st
      = .ret ([staleChild,
          .node (mkData st.nextId (.structural false .leaf) leafW none false false) []], none)
          { nextId := st.nextId + 1, nextSid := st.nextSid,
            log := st.log ++ [.stateBuild 0 2 false] } := by
  have h0 : oldChildAt (some emptyStatefulW) [staleChild] 0 = some staleChild := by
    simp [oldChildAt, sameType, typeOf, staleChild, emptyStatefulW, mkData, Element.GetWidget]
  have h1 : oldChildAt (some leafW) [staleChild] (0 + 1) = none := by
    simp [oldChildAt]
  rw [processElementChildren, h0, buildElementTree_emptyStateful_over_stale]
  simp only
  rw [processElementChildren, h1, buildElementTree_leafW_new]
  simp only
  rw [processElementChildren]
  rfl

theorem elementTarget_rowW :
    elementTarget rowW ⟨true, .multi, true⟩ (some compositeOverStale) ⟨30, 5, []⟩
      = (.node (mkData 1 (.structural true .multi) rowW none false true) [staleChild],
          ⟨30, 5, []⟩) := by
  simp [elementTarget, sameType, typeOf, rowW, compositeOverStale, mkData,
    Element.GetWidget, Element.updateWidget]

theorem getElementChildren_compositeOverStale :
    getElementChildren (some compositeOverStale) = [staleChild] := by
  simp [getElementChildren, compositeOverStale, mkData, Element.hasChildElement,
    Element.hasChildrenElements, Element.cls, Element.getChildrenElements]

theorem setElementChildren_rowW (cs : List Element) :
    setElementChildren (.node (mkData 1 (.structural true .multi) rowW none false true)
      [staleChild]) cs
      = some (.node (mkData 1 (.structural true .multi) rowW none false true) cs) := by
  simp [setElementChildren, mkData, Element.hasChildElement, Element.hasChildrenElements,
    Element.cls, Element.setChildrenElements]

theorem elementFromElementWidget_rowW :
    elementFromElementWidget 9 ⟨true, .multi, true⟩
        (.children [some emptyStatefulW, some leafW]) (some compositeOverStale) ⟨30, 5, []⟩
      = .ret (some (.node (mkData 1 (.structural true .multi) rowW none false true)
          [staleChild,
           .node (mkData 30 (.structural false .leaf) leafW none false false) []]), none)
          ⟨31, 5, [.stateBuild 0 2 false]⟩ := by
  have hr : Widget.element 9 ⟨true, .multi, true⟩
      (.children [some emptyStatefulW, some leafW]) = rowW := rfl
  rw [elementFromElementWidget, hr, elementTarget_rowW, getElementChildren_compositeOverStale,
    getWidgetChildren, processElementChildren_rowW]
  simp only [setElementChildren_rowW]
  rfl

theorem buildElementTree_rowW_over_composite :
    buildElementTree (some rowW) (some compositeOverStale) ⟨30, 5, []⟩
      = .ret (some (.node (mkData 1 (.structural true .multi) rowW none false true)
          [staleChild,
           .node (mkData 30 (.structural false .leaf) leafW none false false) []]), none)
          ⟨31, 5, [.stateBuild 0 2 false]⟩ := by
  have hr : rowW = .element 9 ⟨true, .multi, true⟩
      (.children [some emptyStatefulW, some leafW]) := rfl
  rw [hr, buildElementTree, elementFromElementWidget_rowW]
  rfl

theorem C3_children_matched_by_index_witness :
    (getElementChildren (some (.node (mkData 1 (.structural true .multi) rowW none false
        true) [staleChild,
          .node (mkData 30 (.structural false .leaf) leafW none false false) []]))).length
      = (getWidgetChildren (.children [some emptyStatefulW, some leafW])).length ∧
    ∀ (i : Nat) c w, (getElementChildren (some (.node (mkData 1 (.structural true .multi) rowW none
        false true) [staleChild,
          .node (mkData 30 (.structural false .leaf) leafW none false false) []])))[i]?
          = some c →
      (getWidgetChildren (.children [some emptyStatefulW, some leafW]))[i]? = some w →
      ChildAt ⟨30, 5, []⟩ ⟨31, 5, [.stateBuild 0 2 false]⟩ w
        ((getElementChildren (some compositeOverStale))[i]?) c :=
  C3_children_matched_by_index 9 ⟨true, .multi, true⟩
    (.children [some emptyStatefulW, some leafW]) (some compositeOverStale) ⟨30, 5, []⟩ _ _
    (by simp [getWidgetChildren])
    (by
      intro e he
      have : e = staleChild := by
        simpa [compositeOverStale, mkData, getElementChildren, Element.hasChildElement,
          Element.hasChildrenElements, Element.cls, Element.getChildrenElements] using he
      subst this
      simp [classMatches, staleChild, emptyStatefulW, mkData, Element.GetWidget, Element.cls])
    (Or.inl (by simp [mkData, Element.hasChildrenElements, Element.cls]))
    buildElementTree_rowW_over_composite

theorem inBounds_iff (offset size : Int × Int) (x y : Int) :
    inBounds offset size x y = true ↔
      0 < x - offset.1 ∧ x - offset.1 < size.1 ∧ 0 < y - offset.2 ∧ y - offset.2 < size.2 := by
  simp only [inBounds, Bool.and_eq_true, decide_eq_true_eq, gt_iff_lt]
  constructor
  · rintro ⟨⟨⟨a, b⟩, c⟩, d⟩
    exact ⟨a, c, b, d⟩
  · rintro ⟨a, c, b, d⟩
    exact ⟨⟨⟨a, b⟩, c⟩, d⟩

theorem hitTestChildren_eq (cs : List Element) (xo yo : Int) :
    hitTestChildren cs xo yo = cs.findSome? (fun c => hitTest c xo yo) := by
  induction cs with
  | nil => rw [hitTestChildren]; rfl
  | cons c t ih =>
    rw [hitTestChildren, List.findSome?_cons, ih]
    cases hitTest c xo yo <;> rfl

theorem hitTest_out (e : Element) (x y : Int)
    (h : inBounds e.d.offset e.d.size x y = false) : hitTest e x y = none := by
  rw [hitTest]
  simp [h]

theorem hitTest_in (e : Element) (x y : Int)
    (h : inBounds e.d.offset e.d.size x y = true) :
    hitTest e x y
      = some (((getElementChildren (some e)).findSome?
          (fun c => hitTest c (x - e.d.offset.1) (y - e.d.offset.2))).getD e) := by
  rw [hitTest]
  simp only [h, if_true, hitTestChildren_eq]
  cases (getElementChildren (some e)).findSome?
      (fun c => hitTest c (x - e.d.offset.1) (y - e.d.offset.2)) <;> rfl

theorem hitTest_eq_none_iff (e : Element) (x y : Int) :
    hitTest e x y = none ↔ inBounds e.d.offset e.d.size x y = false := by
  constructor
  · intro h
    cases hb : inBounds e.d.offset e.d.size x y with
    | false => rfl
    | true => rw [hitTest_in e x y hb] at h; cases h
  · exact hitTest_out e x y

/-- C11, at the failing input: the point (0, 5) translated by the offset (0, 0)
of a 10 × 10 element lies in `[0, 10) × [0, 10)`, on its lower edge in `x`, and
`hitTest` returns none. -/
theorem C11_lower_edge_is_not_hit :
    (0 ≤ (0 : Int) - box10.d.offset.1 ∧ (0 : Int) - box10.d.offset.1 < box10.d.size.1 ∧
      0 ≤ (5 : Int) - box10.d.offset.2 ∧ (5 : Int) - box10.d.offset.2 < box10.d.size.2) ∧
    hitTest box10 0 5 = none := by
  refine ⟨by decide, ?_⟩
  apply hitTest_out
  decide
theorem findSome_some_getElem {α β : Type} (f : α → Option β) (l : List α) (r : β)
    (h : l.findSome? f = some r) : ∃ (i : Nat) (c : α), l[i]? = some c ∧ f c = some r := by
  induction l with
  | nil => simp at h
  | cons a t ih =>
    rw [List.findSome?_cons] at h
    cases hf : f a with
    | some b =>
      rw [hf] at h
      simp only [Option.some.injEq] at h
      subst h
      exact ⟨0, a, by simp, hf⟩
    | none =>
      rw [hf] at h
      obtain ⟨i, c, hi, hc⟩ := ih h
      exact ⟨i + 1, c, by simpa using hi, hc⟩

theorem localPoint_nil (e : Element) (x y : Int) :
    localPoint e [] x y = some (x - e.d.offset.1, y - e.d.offset.2) := rfl

theorem localPoint_cons (e c : Element) (i : Nat) (p : List Nat) (x y : Int)
    (hc : (getElementChildren (some e))[i]? = some c) :
    localPoint e (i :: p) x y = localPoint c p (x - e.d.offset.1) (y - e.d.offset.2) := by
  simp only [localPoint, hc]

theorem descend_cons_of (e c : Element) (i : Nat) (p : List Nat)
    (hc : (getElementChildren (some e))[i]? = some c) :
    descend e (i :: p) = descend c p := by
  rw [descend_cons, hc]
  rfl

/-- Where a hit lies: the path from the root to the returned element, the
bounds passed on the way, and the children of the returned element. -/
theorem hitTest_path (root : Element) :
    ∀ (x y : Int) (E : Element), hitTest root x y = some E →
      ∃ p, descend root p = some E ∧
        (∀ q a, q <+: p → descend root q = some a →
          ∃ lx ly, localPoint root q x y = some (lx, ly) ∧
            0 < lx ∧ lx < a.d.size.1 ∧ 0 < ly ∧ ly < a.d.size.2) ∧
        ∃ lx ly, localPoint root p x y = some (lx, ly) ∧
          ∀ c ∈ getElementChildren (some E), hitTest c lx ly = none := by
  induction root using Element.tree_induction with
  | step e ih =>
    intro x y E h
    have hb : inBounds e.d.offset e.d.size x y = true := by
      cases hb : inBounds e.d.offset e.d.size x y with
      | true => rfl
      | false => rw [hitTest_out e x y hb] at h; cases h
    have hbox := (inBounds_iff _ _ _ _).mp hb
    rw [hitTest_in e x y hb] at h
    simp only [Option.some.injEq] at h
    cases hf : (getElementChildren (some e)).findSome?
        (fun c => hitTest c (x - e.d.offset.1) (y - e.d.offset.2)) with
    | none =>
      rw [hf] at h
      simp only [Option.getD_none] at h
      subst h
      refine ⟨[], rfl, ?_, _, _, rfl, ?_⟩
      · intro q a hq ha
        rw [List.prefix_nil] at hq
        subst hq
        simp only [descend_nil, Option.some.injEq] at ha
        subst ha
        exact ⟨_, _, rfl, hbox.1, hbox.2.1, hbox.2.2.1, hbox.2.2.2⟩
      · exact List.findSome?_eq_none_iff.mp hf
    | some r =>
      rw [hf] at h
      simp only [Option.getD_some] at h
      subst h
      obtain ⟨i, c, hi, hc⟩ := findSome_some_getElem _ _ _ hf
      obtain ⟨p, hp, hpre, hlast⟩ := ih c (List.getElem?_mem hi) _ _ _ hc
      refine ⟨i :: p, ?_, ?_, ?_⟩
      · rw [descend_cons_of e c i p hi]
        exact hp
      · intro q a hq ha
        rcases List.prefix_cons_iff.mp hq with hq | ⟨t, hq, ht⟩
        · subst hq
          simp only [descend_nil, Option.some.injEq] at ha
          subst ha
          exact ⟨_, _, rfl, hbox.1, hbox.2.1, hbox.2.2.1, hbox.2.2.2⟩
        · subst hq
          rw [descend_cons_of e c i t hi] at ha
          rw [localPoint_cons e c i t x y hi]
          exact hpre t a ht ha
      · rw [localPoint_cons e c i p x y hi]
        exact hlast

/-- C12: if `hitTest(root, x, y)` returns `E`, then `E` is the root or a
descendant of it, and for `E` and every ancestor of `E` on the path from the
root, the point `(x, y)` less the stored offsets of the root, of the elements
on the way down and of that element lies inside that element's size. -/
theorem C12_hit_lies_within_accumulated_bounds (root E : Element) (x y : Int)
    (h : hitTest root x y = some E) :
    ∃ p, descend root p = some E ∧
      ∀ q a, q <+: p → descend root q = some a →
        ∃ lx ly, localPoint root q x y = some (lx, ly) ∧
          0 ≤ lx ∧ lx < a.d.size.1 ∧ 0 ≤ ly ∧ ly < a.d.size.2 := by
  obtain ⟨p, hp, hpre, _⟩ := hitTest_path root x y E h
  refine ⟨p, hp, ?_⟩
  intro q a hq ha
  obtain ⟨lx, ly, hl, h1, h2, h3, h4⟩ := hpre q a hq ha
  exact ⟨lx, ly, hl, le_of_lt h1, h2, le_of_lt h3, h4⟩

/-- When `inBounds` accepts the point for `e`, `hitTest(e, x, y)` is the result
of the first child, in child order, whose `hitTest` on the translated point is
not none, and `e` itself when every child returns none; the element returned by
`hitTest` has no child for which `inBounds` accepts the point. -/
theorem hitTest_first_hit_child (e : Element) (x y : Int) :
    (inBounds e.d.offset e.d.size x y = true →
      hitTest e x y
        = some (((getElementChildren (some e)).findSome?
            (fun c => hitTest c (x - e.d.offset.1) (y - e.d.offset.2))).getD e)) ∧
    (inBounds e.d.offset e.d.size x y = true →
      (∀ c ∈ getElementChildren (some e),
        hitTest c (x - e.d.offset.1) (y - e.d.offset.2) = none) →
      hitTest e x y = some e) ∧
    (∀ E, hitTest e x y = some E →
      ∃ p lx ly, descend e p = some E ∧ localPoint e p x y = some (lx, ly) ∧
        ∀ c ∈ getElementChildren (some E),
          hitTest c lx ly = none ∧ inBounds c.d.offset c.d.size lx ly = false) := by
  refine ⟨hitTest_in e x y, ?_, ?_⟩
  · intro hb hall
    rw [hitTest_in e x y hb, List.findSome?_eq_none_iff.mpr hall]
    rfl
  · intro E h
    obtain ⟨p, hp, _, lx, ly, hl, hall⟩ := hitTest_path e x y E h
    exact ⟨p, lx, ly, hp, hl, fun c hc =>
      ⟨hall c hc, (hitTest_eq_none_iff c lx ly).mp (hall c hc)⟩⟩
theorem getElementChildren_box10 : getElementChildren (some box10) = [] := by
  simp [getElementChildren, box10, Element.hasChildElement, Element.hasChildrenElements,
    Element.cls]

theorem getElementChildren_frame100 : getElementChildren (some frame100) = [box10] := by
  simp [getElementChildren, frame100, Element.hasChildElement, Element.cls,
    Element.getChildElement]

theorem hitTest_box10_inside : hitTest box10 5 5 = some box10 := by
  rw [hitTest_in box10 5 5 (by decide), getElementChildren_box10]
  rfl

theorem hitTest_frame100_inside : hitTest frame100 10 10 = some box10 := by
  rw [hitTest_in frame100 10 10 (by decide), getElementChildren_frame100]
  have h : hitTest box10 (10 - frame100.d.offset.1) (10 - frame100.d.offset.2) = some box10 :=
    hitTest_box10_inside
  simp only [List.findSome?_cons, h, Option.getD_some]

theorem C12_hit_lies_within_accumulated_bounds_witness :
    ∃ p, descend frame100 p = some box10 ∧
      ∀ q a, q <+: p → descend frame100 q = some a →
        ∃ lx ly, localPoint frame100 q 10 10 = some (lx, ly) ∧
          0 ≤ lx ∧ lx < a.d.size.1 ∧ 0 ≤ ly ∧ ly < a.d.size.2 :=
  C12_hit_lies_within_accumulated_bounds frame100 box10 10 10 hitTest_frame100_inside

theorem getElementChildren_box10At5 : getElementChildren (some box10At5) = [] := by
  simp [getElementChildren, box10At5, Element.hasChildElement, Element.hasChildrenElements,
    Element.cls]

theorem getElementChildren_parent100 : getElementChildren (some parent100) = [box10At5] := by
  simp [getElementChildren, parent100, Element.hasChildElement, Element.cls,
    Element.getChildElement]

/-- C13, at the failing input: `parent100` (100 × 100 at (0, 0)) has the one
child `box10At5` (10 × 10 at (5, 5)).  The point (5, 10) is inside the parent;
in the child's local space it is (0, 5), inside the child's size.  `hitTest` on
the child returns none, so `hitTest(parent100, 5, 10)` returns the parent: the
returned element has a child whose bounds contain the point. -/
theorem C13_returned_element_has_child_containing_point :
    getElementChildren (some parent100) = [box10At5] ∧
    localPoint parent100 [0] 5 10 = some (0, 5) ∧
    ((0 : Int) ≤ 0 ∧ (0 : Int) < box10At5.d.size.1 ∧
      (0 : Int) ≤ 5 ∧ (5 : Int) < box10At5.d.size.2) ∧
    hitTest box10At5 (5 - parent100.d.offset.1) (10 - parent100.d.offset.2) = none ∧
    hitTest parent100 5 10 = some parent100 := by
  have hchild :
      hitTest box10At5 (5 - parent100.d.offset.1) (10 - parent100.d.offset.2) = none :=
    hitTest_out box10At5 _ _ (by decide)
  refine ⟨getElementChildren_parent100, ?_, by decide, hchild, ?_⟩
  · rw [localPoint_cons parent100 box10At5 0 [] 5 10
      (by rw [getElementChildren_parent100]; rfl)]
    rfl
  · rw [hitTest_in parent100 5 10 (by decide), getElementChildren_parent100]
    simp only [List.findSome?_cons, hchild, List.findSome?_nil, Option.getD_none]

/-- The result of `bubbleUp` on a parent chain, given depth for the whole chain. -/
theorem bubbleUp_chain (L : Links) (event : PointerEvent) :
    ∀ (chain : List Element) (a : Element) (fuel : Nat),
      ParentChain L (a :: chain) → chain.length < fuel →
      bubbleUp L fuel a event
        = some ⟨(upToHandler L event (a :: chain)).map Element.id,
            ((upToHandler L event (a :: chain)).filter
              (fun x => (L.listener x).isSome)).map Element.id,
            (a :: chain).any (handles L event)⟩ := by
  intro chain
  induction chain with
  | nil =>
    intro a fuel hc hf
    cases fuel with
    | zero => simp at hf
    | succ n =>
      simp only [ParentChain] at hc
      cases hl : L.listener a with
      | none => simp [bubbleUp, hc, hl, upToHandler, handles]
      | some h => cases hh : h event <;> simp [bubbleUp, hc, hl, upToHandler, handles, hh]
  | cons b rest ih =>
    intro a fuel hc hf
    cases fuel with
    | zero => simp at hf
    | succ n =>
      simp only [ParentChain] at hc
      have hrec := ih b n hc.2 (by simpa using hf)
      cases hl : L.listener a with
      | none =>
        rw [bubbleUp]
        simp only [hc.1, hrec, hl, Option.map_some']
        have hh : handles L event a = false := by simp [handles, hl]
        have hu : upToHandler L event (a :: b :: rest) = a :: upToHandler L event (b :: rest) := by
          rw [upToHandler, hh]; rfl
        rw [hu]
        simp [hl, hh]
      | some h =>
        cases hh : h event with
        | true =>
          have hh' : handles L event a = true := by simp [handles, hl, hh]
          rw [bubbleUp, upToHandler, hh']
          simp [hl, hh, hh']
        | false =>
          have hh' : handles L event a = false := by simp [handles, hl, hh]
          have hu : upToHandler L event (a :: b :: rest)
              = a :: upToHandler L event (b :: rest) := by
            rw [upToHandler, hh']; rfl
          rw [bubbleUp]
          simp only [hc.1, hrec, hl, Option.map_some']
          rw [hu]
          simp [hl, hh, hh']
theorem upToHandler_eq_take (L : Links) (event : PointerEvent) (l : List Element) :
    upToHandler L event l = l.take (l.findIdx (handles L event) + 1) := by
  induction l with
  | nil => rfl
  | cons a rest ih =>
    rw [upToHandler, List.findIdx_cons]
    cases h : handles L event a with
    | true => simp
    | false => simp [ih]

/-- C14: for an element `target` whose parent chain `target = a_0, ..., a_k = root`
is finite, `bubbleUp(target, event)` returns (given stack depth for the chain);
it visits exactly `a_0..a_j`, in that order, and calls `HandleEvent` once on
each of them that is a pointer-event listener, where `a_j` is the first listener
that reports the event handled and `j = k` when none does; in that case nothing
is handled and nothing else happens. -/
theorem C14_bubbleUp_stops_at_first_handler (L : Links) (event : PointerEvent)
    (target : Element) (chain : List Element) (fuel : Nat)
    (hchain : ParentChain L (target :: chain)) (hfuel : chain.length < fuel) :
    bubbleUp L fuel target event
      = some ⟨((target :: chain).take
            ((target :: chain).findIdx (handles L event) + 1)).map Element.id,
          (((target :: chain).take
            ((target :: chain).findIdx (handles L event) + 1)).filter
              (fun x => (L.listener x).isSome)).map Element.id,
          (target :: chain).any (handles L event)⟩ := by
  rw [bubbleUp_chain L event chain target fuel hchain hfuel, upToHandler_eq_take]

theorem parentChain_sampleLinks :
    ParentChain sampleLinks [box10, frame100, compositeOverStale] := by
  refine ⟨?_, ?_, ?_⟩
  · rfl
  · rfl
  · rfl

theorem C14_bubbleUp_stops_at_first_handler_witness :
    bubbleUp sampleLinks 3 box10 ⟨true, 1⟩
      = some ⟨([box10, frame100, compositeOverStale].take
            ([box10, frame100, compositeOverStale].findIdx (handles sampleLinks ⟨true, 1⟩)
              + 1)).map Element.id,
          (([box10, frame100, compositeOverStale].take
            ([box10, frame100, compositeOverStale].findIdx (handles sampleLinks ⟨true, 1⟩)
              + 1)).filter
              (fun x => (sampleLinks.listener x).isSome)).map Element.id,
          [box10, frame100, compositeOverStale].any (handles sampleLinks ⟨true, 1⟩)⟩ :=
  C14_bubbleUp_stops_at_first_handler sampleLinks ⟨true, 1⟩ box10
    [frame100, compositeOverStale] 3 parentChain_sampleLinks (by decide)

theorem bubbleUp_sampleLinks_handled :
    bubbleUp sampleLinks 3 box10 ⟨true, 1⟩ = some ⟨[40, 41], [41], true⟩ := by
  rfl

theorem bubbleUp_sampleLinks_dropped :
    bubbleUp sampleLinks 3 box10 ⟨false, 1⟩ = some ⟨[40, 41, 1], [41], false⟩ := by
  rfl
/-- When the parent of the context element holds a widget of another type,
the loop of `ContextOf` reads that same parent again on every iteration and
never ends. -/
theorem contextOf_spins (L : Links) (e P : Element) (typeOf : Option Widget)
    (hp : L.getParentElement e = some P)
    (hty : sameType (some P.GetWidget) typeOf = false) :
    ∀ fuel, ContextOf L fuel e typeOf = none := by
  intro fuel
  unfold ContextOf
  rw [hp]
  induction fuel with
  | zero => rfl
  | succ n ih =>
    rw [ContextOfLoop]
    simp only [hty, Bool.false_eq_true, if_false, hp]
    exact ih

/-- C20, at the failing input: the context element's parent holds a widget of
another type and its grandparent holds a widget of the type asked for.  The
claim has `ContextOf` return the grandparent; the loop never advances past the
parent and does not return, whatever the number of iterations. -/
theorem C20_contextOf_does_not_return :
    sampleLinks.getParentElement box10 = some frame100 ∧
    sampleLinks.getParentElement frame100 = some compositeOverStale ∧
    sameType (some frame100.GetWidget) (some rowW) = false ∧
    sameType (some compositeOverStale.GetWidget) (some rowW) = true ∧
    ∀ fuel, ContextOf sampleLinks fuel box10 (some rowW) = none := by
  refine ⟨rfl, rfl, ?_, ?_, ?_⟩
  · decide
  · decide
  · exact contextOf_spins sampleLinks box10 frame100 (some rowW) rfl (by decide)

/-- C15: for a `PaddingElement` (holding a `Padding` widget) that has a child
and any incoming constraints, `layout` returns with the child's offset set to
`(Padding.Left, Padding.Top)`, whatever the constraints, the operations on them
and the child's size are; for the uniform inset `EdgeInsetsAll(10)` the child
offset is `(10, 10)`. -/
theorem C15_padding_layout_sets_child_offset {Constraints : Type}
    (ops : Glt.LayoutOps Constraints) (element : Glt.PaddingElement Constraints)
    (widget : Glt.Padding) (child : Glt.Child Constraints) (c : Constraints)
    (hwidget : element.widget = some widget) (hchild : element.child = some child) :
    (∃ e' ch', Glt.PaddingElement.layout ops element c = .ret e' none ∧
      e'.child = some ch' ∧ ch'.offset = ⟨widget.Padding.Left, widget.Padding.Top⟩) ∧
    (widget.Padding = Glt.EdgeInsetsAll 10 →
      ∃ e' ch', Glt.PaddingElement.layout ops element c = .ret e' none ∧
        e'.child = some ch' ∧ ch'.offset = ⟨10, 10⟩) := by
  have h : ∃ e' ch', Glt.PaddingElement.layout ops element c = .ret e' none ∧
      e'.child = some ch' ∧ ch'.offset = ⟨widget.Padding.Left, widget.Padding.Top⟩ := by
    unfold Glt.PaddingElement.layout
    rw [hchild, hwidget]
    exact ⟨_, _, rfl, rfl, rfl⟩
  refine ⟨h, ?_⟩
  intro hp
  obtain ⟨e', ch', h1, h2, h3⟩ := h
  refine ⟨e', ch', h1, h2, ?_⟩
  rw [h3, hp]
  rfl

theorem C15_padding_layout_sets_child_offset_witness :
    (∃ e' ch', Glt.PaddingElement.layout Glt.sampleOps
        ⟨some ⟨Glt.EdgeInsetsAll 10⟩, ⟨0, 0⟩, some Glt.fixedChild⟩ (0, 0, 65535, 65535)
        = .ret e' none ∧
      e'.child = some ch' ∧ ch'.offset = ⟨(Glt.EdgeInsetsAll 10).Left,
        (Glt.EdgeInsetsAll 10).Top⟩) ∧
    (Glt.EdgeInsetsAll 10 = Glt.EdgeInsetsAll 10 →
      ∃ e' ch', Glt.PaddingElement.layout Glt.sampleOps
          ⟨some ⟨Glt.EdgeInsetsAll 10⟩, ⟨0, 0⟩, some Glt.fixedChild⟩ (0, 0, 65535, 65535)
          = .ret e' none ∧
        e'.child = some ch' ∧ ch'.offset = ⟨10, 10⟩) :=
  C15_padding_layout_sets_child_offset Glt.sampleOps
    ⟨some ⟨Glt.EdgeInsetsAll 10⟩, ⟨0, 0⟩, some Glt.fixedChild⟩ ⟨Glt.EdgeInsetsAll 10⟩
    Glt.fixedChild (0, 0, 65535, 65535) rfl rfl

/-- C16, at the failing input: in package `flutter`,
`Size{20, 20}.addMargin(EdgeInsets{All: 10})` is the size 30 × 30: the inset is
added once to each axis, not on both sides. -/
theorem C16_flutter_addMargin_adds_inset_once :
    Flutter.Size.addMargin ⟨20, 20⟩ ⟨10⟩ = ⟨30, 30⟩ ∧
    Flutter.Size.addMargin ⟨20, 20⟩ ⟨10⟩ ≠ ⟨40, 40⟩ := by
  decide

/-- C17, at the failing input: the child's `layout` returns an error and
`PaddingElement.layout` returns nil. -/
theorem C17_padding_layout_drops_child_error :
    (Glt.failingChild.layout (Glt.sampleOps.deflate (0, 0, 65535, 65535)
      (Glt.EdgeInsetsAll 10)) Glt.failingChild.size Glt.failingChild.offset).2.2
      = some (.user 7) ∧
    ∃ e', Glt.PaddingElement.layout Glt.sampleOps
        ⟨some ⟨Glt.EdgeInsetsAll 10⟩, ⟨0, 0⟩, some Glt.failingChild⟩ (0, 0, 65535, 65535)
      = .ret e' none :=
  ⟨rfl, _, rfl⟩

/-- C18, at the failing input: `constraints{0, 0, 5, 5}.addMargins(EdgeInsets{All: 10})`
has `maxWidth = maxHeight = 65531`: the subtraction on the finite max bounds
wraps modulo 2^16 and the bounds grow. -/
theorem C18_addMargins_wraps_on_max_bounds :
    Flutter.constraints.addMargins ⟨0, 0, 5, 5⟩ ⟨10⟩ = ⟨0, 0, 65531, 65531⟩ ∧
    (5 : Nat) < (Flutter.constraints.addMargins ⟨0, 0, 5, 5⟩ ⟨10⟩).maxWidth := by
  decide

theorem buildElementTree_reconcilerPanic (w : Option Widget) (old : Option Element) (st : St) :
    ReconcilerPanic (buildElementTree w old st) := by
  apply buildElementTree.induct
    (fun w old st => ReconcilerPanic (buildElementTree w old st))
    (fun ty p ks old st => ReconcilerPanic (elementFromElementWidget ty p ks old st))
    (fun ws olds i acc st => ReconcilerPanic (processElementChildren ws olds i acc st))
    (fun ty cs old st => ReconcilerPanic (elementFromStatefulWidget ty cs old st))
    (fun ty b old st => ReconcilerPanic (elementFromStatelessWidget ty b old st))
  case case1 =>
    intro old st
    rw [buildElementTree]
    trivial
  case case2 =>
    intro old st ty b ih
    rw [buildElementTree]
    exact ih
  case case3 =>
    intro old st ty b ih
    rw [buildElementTree]
    exact ih
  case case4 =>
    intro old st ty p ks ih
    rw [buildElementTree]
    exact ih
  case case5 =>
    intro old st ty
    rw [buildElementTree]
    trivial
  case case6 =>
    intro ty p ks old st es m s h ih
    rw [elementFromElementWidget]
    simp only [es] at h ih
    rw [h] at ih
    simp only [h]
    exact ih
  case case7 =>
    intro ty p ks old st es cs err s h ih
    rw [elementFromElementWidget]
    simp only [es] at h
    simp only [h]
    trivial
  case case8 =>
    intro ty p ks old st es cs s h hset ih
    rw [elementFromElementWidget]
    simp only [es] at h hset
    simp only [h, hset]
    exact Or.inr rfl
  case case9 =>
    intro ty p ks old st es cs s h child hset ih
    rw [elementFromElementWidget]
    simp only [es] at h hset
    simp only [h, hset]
    trivial
  case case10 =>
    intro olds i acc st
    rw [processElementChildren]
    trivial
  case case11 =>
    intro olds i acc st wc rest oc m s h ih
    rw [processElementChildren]
    simp only [oc] at h ih
    rw [h] at ih
    simp only [h]
    exact ih
  case case12 =>
    intro olds i acc st wc rest oc c err s h ih
    rw [processElementChildren]
    simp only [oc] at h
    simp only [h]
    trivial
  case case13 =>
    intro olds i acc st wc rest oc c s h ih2 ih1
    rw [processElementChildren]
    simp only [oc] at h
    simp only [h]
    exact ih1
  case case14 =>
    intro ty cs old st osE es hs
    simp only [osE, es] at hs
    rw [elementFromStatefulWidget_nil_state ty cs old st hs]
    exact Or.inl rfl
  case case15 =>
    intro ty cs old st osE es state hs e hb
    simp only [osE, es] at hs
    rw [elementFromStatefulWidget_build_error ty cs old st state e hs hb]
    trivial
  case case16 =>
    intro ty cs old st osE es state hs cw hb oc m s h ih
    simp only [osE, es, oc] at hs h ih
    rw [h] at ih
    rw [elementFromStatefulWidget_build_ok ty cs old st state cw hs hb]
    simp only [h]
    exact ih
  case case17 =>
    intro ty cs old st osE es state hs cw hb oc c err s h ih
    simp only [osE, es, oc] at hs h
    rw [elementFromStatefulWidget_build_ok ty cs old st state cw hs hb]
    simp only [h]
    trivial
  case case18 =>
    intro ty cs old st osE es state hs cw hb oc c s h ih
    simp only [osE, es, oc] at hs h
    rw [elementFromStatefulWidget_build_ok ty cs old st state cw hs hb]
    simp only [h]
    trivial
  case case19 =>
    intro ty old st e
    rw [elementFromStatelessWidget]
    trivial
  case case20 =>
    intro ty old st osE bw oc m s es h ih
    simp only [osE, es, oc] at h ih
    rw [h] at ih
    rw [elementFromStatelessWidget]
    simp only [h]
    exact ih
  case case21 =>
    intro ty old st osE bw oc c err s es h ih
    simp only [osE, es, oc] at h
    rw [elementFromStatelessWidget]
    simp only [h]
    trivial
  case case22 =>
    intro ty old st osE bw oc c s es h ih
    simp only [osE, es, oc] at h
    rw [elementFromStatelessWidget]
    simp only [h]
    trivial

theorem buildElementTree_stateful_self (x : Element) (ty : Nat) (cs : BuildResult)
    (hc : x.isStateful = true) (hw : x.GetWidget = .stateful ty cs) (st s : St)
    (r : Option Element)
    (h : buildElementTree (some x.GetWidget) (some x) st = .ret (r, none) s) :
    ∃ e', r = some e' ∧ asStateful r = some e' ∧ e'.id = x.id := by
  rw [hw, buildElementTree] at h
  obtain ⟨e', hr, hd⟩ := elementFromStatefulWidget_root ty cs _ st s r h
  have hty : sameType (some (Widget.stateful ty cs)) (some x.GetWidget) = true := by
    rw [hw]; exact sameType_self _
  rw [statefulTarget_reuse ty cs x st ((isStateful_iff x).mp hc) hty] at hd
  subst hr
  have hcls : e'.cls = .stateful := by
    have := (isStateful_iff x).mp hc
    simpa [Element.cls, hd] using this
  exact ⟨e', rfl, by simp [asStateful, hcls], by simp [Element.id, hd]⟩

theorem rebuildDirtyChildren_reconcilerPanic (cs : List Element)
    (h : ∀ c ∈ cs, ∀ st, ReconcilerPanic (rebuildDirty c st)) (st : St) :
    ReconcilerPanic (rebuildDirtyChildren cs st) := by
  induction cs generalizing st with
  | nil => rw [rebuildDirtyChildren]; trivial
  | cons c t ih =>
    rw [rebuildDirtyChildren]
    have hc := h c (List.mem_cons_self c t) st
    cases hr : rebuildDirty c st with
    | panic m s => rw [hr] at hc; exact hc
    | ret a s =>
      cases a with
      | error err => trivial
      | ok c1 =>
        simp only
        have ht := ih (fun x hx => h x (List.mem_cons_of_mem c hx)) s
        cases hr2 : rebuildDirtyChildren t s with
        | panic m s2 => rw [hr2] at ht; exact ht
        | ret a2 s2 => cases a2 <;> trivial

theorem rebuildDirty_reconcilerPanic (root : Element)
    (hprod : ∀ x, Reach root x → x.isStateful = true →
      ∃ ty cs, x.GetWidget = .stateful ty cs) (st : St) :
    ReconcilerPanic (rebuildDirty root st) := by
  induction root using Element.tree_induction generalizing st with
  | step e ih =>
    rw [rebuildDirty]
    cases hd : (e.isStateful && !e.d.built) with
    | true =>
      simp only [if_true]
      have hs : e.isStateful = true := by
        cases h1 : e.isStateful
        · simp [h1] at hd
        · rfl
      obtain ⟨ty, cs, hw⟩ := hprod e (reach_refl e) hs
      have hp := buildElementTree_reconcilerPanic (some e.GetWidget) (some e) st
      cases hb : buildElementTree (some e.GetWidget) (some e) st with
      | panic m s => rw [hb] at hp; exact hp
      | ret a s =>
        obtain ⟨r, err⟩ := a
        cases err with
        | some err => trivial
        | none =>
          obtain ⟨e', hr, has, hid⟩ := buildElementTree_stateful_self e ty cs hs hw st s r hb
          simp only [has, hid, ne_eq, not_true_eq_false, if_false]
          trivial
    | false =>
      simp only [Bool.false_eq_true, if_false]
      have hk := rebuildDirtyChildren_reconcilerPanic (getElementChildren (some e))
        (fun c hc s => ih c hc (fun x hx hxs =>
          hprod x ((reach_iff e x).mpr (Or.inr ⟨c, hc, hx⟩)) hxs) s) st
      cases hr : rebuildDirtyChildren (getElementChildren (some e)) st with
      | panic m s => rw [hr] at hk; exact hk
      | ret a s => cases a <;> trivial

/-- C19: in an element tree in which every stateful element stores a widget that
the reconciler classifies as Stateful, `rebuildDirty` never panics with
"statefulelement changed element during dirty rebuild" and its assertion
`newElement.(*StatefulElement)` never fails: whenever the reconciliation of a
not yet built stateful element onto itself returns no error, it returns that
very element, a `*StatefulElement`. -/
theorem C19_rebuildDirty_keeps_stateful_identity (root : Element)
    (hprod : ∀ x, Reach root x → x.isStateful = true →
      ∃ ty cs, x.GetWidget = .stateful ty cs) :
    (∀ st m s, rebuildDirty root st = .panic m s →
      m ≠ "statefulelement changed element during dirty rebuild" ∧
      m ≠ "interface conversion") ∧
    (∀ x, Reach root x → x.isStateful = true → x.d.built = false →
      ∀ st r s, buildElementTree (some x.GetWidget) (some x) st = .ret (r, none) s →
        ∃ e', r = some e' ∧ asStateful r = some e' ∧ e'.id = x.id) := by
  constructor
  · intro st m s h
    have hp := rebuildDirty_reconcilerPanic root hprod st
    rw [h] at hp
    rcases hp with hp | hp <;> subst hp <;> exact ⟨by decide, by decide⟩
  · intro x hx hs _ st r s h
    obtain ⟨ty, cs, hw⟩ := hprod x hx hs
    exact buildElementTree_stateful_self x ty cs hs hw st s r h

theorem reach_dirtyStateful (x : Element) (h : Reach dirtyStateful x) : x = dirtyStateful := by
  rcases (reach_iff dirtyStateful x).mp h with h | ⟨c, hc, _⟩
  · exact h
  · simp [dirtyStateful, mkData, getElementChildren, Element.hasChildElement,
      Element.cls, Element.getChildElement] at hc

theorem C19_rebuildDirty_keeps_stateful_identity_witness :
    (∀ st m s, rebuildDirty dirtyStateful st = .panic m s →
      m ≠ "statefulelement changed element during dirty rebuild" ∧
      m ≠ "interface conversion") ∧
    (∀ x, Reach dirtyStateful x → x.isStateful = true → x.d.built = false →
      ∀ st r s, buildElementTree (some x.GetWidget) (some x) st = .ret (r, none) s →
        ∃ e', r = some e' ∧ asStateful r = some e' ∧ e'.id = x.id) :=
  C19_rebuildDirty_keeps_stateful_identity dirtyStateful (by
    intro x hx _
    rw [reach_dirtyStateful x hx]
    exact ⟨7, .ok none, rfl⟩)

theorem elementFromStatefulWidget_reuse (ty : Nat) (cs : BuildResult) (E : Element)
    (st s : St) (r : Option Element) (hc : E.cls = .stateful)
    (hty : sameType (some (.stateful ty cs)) (some E.GetWidget) = true)
    (h : elementFromStatefulWidget ty cs (some E) st = .ret (r, none) s) :
    ∃ t cw c, E.d.state = some t ∧ t.build = .ok cw ∧
      buildElementTree cw E.getChildElement (st.record (.stateBuild t.sid E.id false))
        = .ret (c, none) s := by
  have htgt := statefulTarget_reuse ty cs E st hc hty
  have has : asStateful (some E) = some E := by simp [asStateful, hc]
  cases hst : E.d.state with
  | none =>
    have hs : (statefulTarget ty cs (asStateful (some E)) st).1.d.state = none := by
      rw [htgt]; exact hst
    rw [elementFromStatefulWidget_nil_state ty cs (some E) st hs] at h
    cases h
  | some t =>
    have hs : (statefulTarget ty cs (asStateful (some E)) st).1.d.state = some t := by
      rw [htgt]; exact hst
    cases hb : t.build with
    | error e =>
      rw [elementFromStatefulWidget_build_error ty cs (some E) st t e hs hb] at h
      simp at h
    | ok cw =>
      rw [elementFromStatefulWidget_build_ok ty cs (some E) st t cw hs hb, htgt, has] at h
      have hid : (E.updateWidget (.stateful ty cs)).id = E.id := rfl
      have hch : (some E).bind Element.getChildElement = E.getChildElement := rfl
      rw [hid, hch] at h
      cases hbt : buildElementTree cw E.getChildElement
          (st.record (.stateBuild t.sid E.id false)) with
      | panic m s1 => rw [hbt] at h; cases h
      | ret a s1 =>
        obtain ⟨c, err⟩ := a
        rw [hbt] at h
        cases err with
        | some err => simp at h
        | none =>
          simp only [Outcome.ret.injEq, Prod.mk.injEq, and_true] at h
          exact ⟨t, cw, c, rfl, hb, h.2 ▸ hbt⟩

/-- C1: reconciling a non-nil widget `W` onto a prior element `E` made by the
reconciler whose stored widget has the concrete type of `W` returns, when no
error is returned, `E` itself: the same object, of the same element type,
holding the same State object.  When `W` is stateful, `CreateState` is not
invoked for it: the call goes from the state before it straight to the `Build`
of `E`'s own State, traced as the first new event with nothing allocated, and
what follows is the reconciliation of the built widget onto `E`'s child. -/
theorem C1_same_type_reuses_element (W : Widget) (E : Element) (st s : St)
    (r : Option Element)
    (hty : sameType (some W) (some E.GetWidget) = true)
    (hprod : classMatches E)
    (h : buildElementTree (some W) (some E) st = .ret (r, none) s) :
    (∃ e', r = some e' ∧ e'.id = E.id ∧ e'.cls = E.cls ∧ e'.d.state = E.d.state) ∧
    (∀ ty cs, W = .stateful ty cs →
      ∃ t cw c evs, E.d.state = some t ∧ t.build = .ok cw ∧
        buildElementTree cw E.getChildElement (st.record (.stateBuild t.sid E.id false))
          = .ret (c, none) s ∧
        s.log = st.log ++ .stateBuild t.sid E.id false :: evs) := by
  have hty' : typeOf (some W) = typeOf (some E.GetWidget) := by
    simpa [sameType] using hty
  constructor
  · cases W with
    | stateless ty b =>
      rw [buildElementTree] at h
      obtain ⟨e', hr, hd⟩ := elementFromStatelessWidget_root ty b _ st s r h
      obtain ⟨b', hw⟩ := typeOf_stateless_inv E.GetWidget ty hty'.symm
      have hc : E.cls = .stateless := by
        unfold classMatches at hprod
        rw [hw] at hprod
        exact hprod
      rw [statelessTarget_reuse _ E st hc hty] at hd
      exact ⟨e', hr, by simp [Element.id, hd], by simp [Element.cls, hd], by simp [hd]⟩
    | stateful ty cs =>
      rw [buildElementTree] at h
      obtain ⟨e', hr, hd⟩ := elementFromStatefulWidget_root ty cs _ st s r h
      obtain ⟨b', hw⟩ := typeOf_stateful_inv E.GetWidget ty hty'.symm
      have hc : E.cls = .stateful := by
        unfold classMatches at hprod
        rw [hw] at hprod
        exact hprod
      rw [statefulTarget_reuse ty cs E st hc hty] at hd
      exact ⟨e', hr, by simp [Element.id, hd], by simp [Element.cls, hd], by simp [hd]⟩
    | element ty p ks =>
      rw [buildElementTree] at h
      obtain ⟨e', hr, hd⟩ := elementFromElementWidget_root ty p ks _ st s r h
      rw [elementTarget_reuse _ p E st hty] at hd
      exact ⟨e', hr, by simp [Element.id, hd], by simp [Element.cls, hd], by simp [hd]⟩
    | unknown ty =>
      rw [buildElementTree] at h
      simp at h
  · intro ty cs hW
    subst hW
    rw [buildElementTree] at h
    obtain ⟨b', hw⟩ := typeOf_stateful_inv E.GetWidget ty hty'.symm
    have hc : E.cls = .stateful := by
      unfold classMatches at hprod
      rw [hw] at hprod
      exact hprod
    obtain ⟨t, cw, c, hst, hb, hbt⟩ := elementFromStatefulWidget_reuse ty cs E st s r hc hty h
    have hlog := buildElementTree_logPost cw E.getChildElement
      (st.record (.stateBuild t.sid E.id false))
    rw [hbt] at hlog
    obtain ⟨evs, hevs, _⟩ := hlog
    refine ⟨t, cw, c, evs, hst, hb, hbt, ?_⟩
    rw [hevs]
    simp [St.record]

theorem C1_same_type_reuses_element_witness :
    (∃ e', some (Element.node (mkData 3 .stateful emptyStatefulW
            (some ⟨4, .ok (some leafW)⟩) true true)
          [.node (mkData 10 (.structural false .leaf) leafW none false false) []]) = some e' ∧
      e'.id = dirtyStateful.id ∧ e'.cls = dirtyStateful.cls ∧
      e'.d.state = dirtyStateful.d.state) ∧
    (∀ ty cs, emptyStatefulW = .stateful ty cs →
      ∃ t cw c evs, dirtyStateful.d.state = some t ∧ t.build = .ok cw ∧
        buildElementTree cw dirtyStateful.getChildElement
            (St.record ⟨10, 5, []⟩ (.stateBuild t.sid dirtyStateful.id false))
          = .ret (c, none) ⟨11, 5, [.stateBuild 4 3 false]⟩ ∧
        (⟨11, 5, [.stateBuild 4 3 false]⟩ : St).log
          = (⟨10, 5, []⟩ : St).log ++ .stateBuild t.sid dirtyStateful.id false :: evs) :=
  C1_same_type_reuses_element emptyStatefulW dirtyStateful ⟨10, 5, []⟩ _ _
    (by simp [sameType, typeOf, emptyStatefulW, dirtyStateful, mkData, Element.GetWidget])
    (by simp [classMatches, emptyStatefulW, dirtyStateful, mkData, Element.GetWidget,
      Element.cls])
    buildElementTree_dirtyStateful

end Squares
